import Mathlib

/-
  Verification development for the h0pesignal confluence-analysis engine
  (src/analysis_engine.py, with the merge step of src/main.py).

  Numeric model: Python floats are embedded as exact rationals (ℚ).  A cell of
  the candle table is `Option ℚ`: `none` models a missing value (NaN), and the
  comparison helpers below reproduce IEEE semantics (every comparison with NaN
  is false, NaN != 0 is true).  A missing column is modelled as the absence of
  the key, distinct from a present-but-NaN cell, exactly as in pandas.
-/

-- Core `Rat` arithmetic is `@[irreducible]`; re-enable kernel reduction so that
-- concrete witnesses can be checked with `decide`.
attribute [local semireducible] Rat.add Rat.sub Rat.mul Rat.inv

/-- A table cell: `some q` is an ordinary float value, `none` is NaN/missing. -/
abbrev Cell : Type := Option ℚ

/-- Python `a < b` on floats: false whenever either side is NaN. -/
def pyLT (a b : Cell) : Bool :=
  match a, b with
  | some x, some y => decide (x < y)
  | _, _ => false

/-- Python `a > b` on floats: false whenever either side is NaN. -/
def pyGT (a b : Cell) : Bool :=
  match a, b with
  | some x, some y => decide (y < x)
  | _, _ => false

/-- Python `a <= b` on floats: false whenever either side is NaN. -/
def pyLE (a b : Cell) : Bool :=
  match a, b with
  | some x, some y => decide (x ≤ y)
  | _, _ => false

/-- Python `a == b` on floats: false whenever either side is NaN. -/
def pyEQ (a b : Cell) : Bool :=
  match a, b with
  | some x, some y => decide (x = y)
  | _, _ => false

/-- Python `a != 0`: true for NaN (NaN compares unequal to everything). -/
def cellNE0 (c : Cell) : Bool :=
  match c with
  | some q => decide (q ≠ 0)
  | none => true

/-- Negation of a cell (`-x`); NaN stays NaN. -/
def cneg (c : Cell) : Cell := c.map (fun q => -q)

/-- Cell addition with NaN propagation. -/
def cAdd (a b : Cell) : Cell :=
  match a, b with
  | some x, some y => some (x + y)
  | _, _ => none

/-- Cell multiplication with NaN propagation. -/
def cMul (a b : Cell) : Cell :=
  match a, b with
  | some x, some y => some (x * y)
  | _, _ => none

/-- Cell division with NaN propagation; a zero denominator yields a
non-rational float (inf or NaN), modelled as `none`. -/
def cDiv (a b : Cell) : Cell :=
  match a, b with
  | some x, some y => if y = 0 then none else some (x / y)
  | _, _ => none

/-- The value of a cell, with a fallback used only where the cell is provably
not NaN. -/
def cellVal (c : Cell) (d : ℚ) : ℚ := c.getD d

/-- Round-half-to-even on rationals, the rounding used by Python `round` and
by `float.__format__`. -/
def roundHalfEven (q : ℚ) : ℤ :=
  let f : ℤ := ⌊q⌋
  let r : ℚ := q - f
  if r < 1/2 then f
  else if 1/2 < r then f + 1
  else if f % 2 = 0 then f else f + 1

/-- Python `int(x)` on a float: truncation toward zero. -/
def truncInt (q : ℚ) : ℤ := if 0 ≤ q then ⌊q⌋ else ⌈q⌉

/-- Python `round(x, 2)` applied to a cell (NaN rounds to NaN). -/
def pyRound2 (c : Cell) : Cell :=
  c.map (fun q => (roundHalfEven (q * 100) : ℚ) / 100)

/-- Python `f-string` rendering with format `.0f` (used for the OBV label);
NaN renders as "nan". -/
def fmtF0Cell (c : Cell) : String :=
  match c with
  | none => "nan"
  | some q => toString (roundHalfEven q)

/-- Python `str.replace` over the character list of a string (the library
`String.replace` does not reduce in the kernel).  Replaces every
non-overlapping occurrence, scanning left to right, like Python. -/
def listReplace : ℕ → List Char → List Char → List Char → List Char
  | 0, s, _, _ => s
  | _, [], _, _ => []
  | fuel + 1, c :: rest, pat, sub =>
    if pat ≠ [] ∧ pat.isPrefixOf (c :: rest) then
      sub ++ listReplace fuel (List.drop pat.length (c :: rest)) pat sub
    else
      c :: listReplace fuel rest pat sub

/-- Python `s.replace(pat, sub)` for nonempty `pat`. -/
def pyReplace (s pat sub : String) : String :=
  String.mk (listReplace (s.data.length + 1) s.data pat.data sub.data)

/-- ASCII uppercase of one character (the indicator keys are ASCII). -/
def upChar (c : Char) : Char :=
  if 97 ≤ c.toNat ∧ c.toNat ≤ 122 then Char.ofNat (c.toNat - 32) else c

/-- Python `s.upper()` on ASCII strings (`String.toUpper` does not reduce in
the kernel). -/
def pyUpper (s : String) : String := String.mk (s.data.map upChar)

/-- Python `s.startswith(pat)`. -/
def pyStartsWith (s pat : String) : Bool := pat.data.isPrefixOf s.data

/-- A row of the candle table: the (column name, cell) pairs in column order,
as produced by `df.iloc[k]`. -/
abbrev Row : Type := List (String × Cell)

/-- Label lookup on a row (`row[key]` would raise `KeyError` when absent). -/
def Row.find? (r : Row) (k : String) : Option Cell := List.lookup k r

/-- Python `row.get(key, default)`: the default applies only when the key is
absent; a present NaN cell is returned as is. -/
def Row.getC (r : Row) (k : String) (d : Cell) : Cell :=
  match Row.find? r k with
  | some c => c
  | none => d

/-- Python `row[key]`: raises `KeyError` when the label is absent. -/
def Row.item (r : Row) (k : String) : Except String Cell :=
  match Row.find? r k with
  | some c => .ok c
  | none => .error ("KeyError: " ++ k)

/-- The candle table: per-row calendar dates (the values of
`df['timestamp'].dt.date`, encoded as integers) plus the named numeric
columns in order. -/
structure Table where
  dates : List ℤ
  cols : List (String × List Cell)
deriving DecidableEq, Repr

/-- Number of rows, `len(df)`. -/
def Table.nrows (t : Table) : ℕ := t.dates.length

/-- Column lookup, `df[name]` as an option. -/
def getCol (t : Table) (k : String) : Option (List Cell) := List.lookup k t.cols

/-- Column access `df[name]`, raising `KeyError` when absent. -/
def colItem (t : Table) (k : String) : Except String (List Cell) :=
  match getCol t k with
  | some c => .ok c
  | none => .error ("KeyError: " ++ k)

/-- `df[name] = values`: replaces the column in place when the name exists,
otherwise appends it as the last column (pandas assignment semantics). -/
def setCol (t : Table) (k : String) (v : List Cell) : Table :=
  if (t.cols.map Prod.fst).contains k then
    { t with cols := t.cols.map (fun kv => cond (kv.1 == k) (k, v) kv) }
  else
    { t with cols := t.cols ++ [(k, v)] }

/-- `df.drop(name, axis=1)`: removes the column(s) with that label. -/
def dropCol (t : Table) (k : String) : Table :=
  { t with cols := t.cols.filter (fun kv => !(kv.1 == k)) }

/-- `df.iloc[i]` as a row of (column name, cell) pairs in column order. -/
def Table.ilocRow (t : Table) (i : ℕ) : Row :=
  t.cols.filterMap (fun kv => (kv.2[i]?).map (fun c => (kv.1, c)))

/-- `df.iloc[-k]` for positive `k`: raises `IndexError` when out of bounds. -/
def ilocNeg (t : Table) (k : ℕ) : Except String Row :=
  if k ≤ t.nrows ∧ k ≠ 0 then .ok (t.ilocRow (t.nrows - k))
  else .error "IndexError: single positional indexer is out-of-bounds"

/-- Engine configuration.  Every field is optional; the accessors below apply
the defaults at the same call sites as the Python `dict.get` calls. -/
structure Config where
  min_data_points? : Option ℕ
  ema_periods? : Option (List ℕ)
  rsi_overbought? : Option ℚ
  rsi_oversold? : Option ℚ
  adx_threshold? : Option ℚ
  score_weights : List (String × ℚ)
  reversal_swing? : Option ℚ
  trend_continuation? : Option ℚ
  momentum_scalp? : Option ℚ

/-- `indicator_settings.get("min_data_points", 200)`. -/
def Config.minDataPoints (c : Config) : ℕ := c.min_data_points?.getD 200

/-- `indicator_settings.get("ema", {}).get("periods", [50, 200])` — the
default used by `analyze_ema`. -/
def Config.emaPeriods (c : Config) : List ℕ := c.ema_periods?.getD [50, 200]

/-- `indicator_settings.get("ema", {}).get("periods", [200])` — the different
default used by `_is_signal_safe`. -/
def Config.emaPeriodsSafe (c : Config) : List ℕ := c.ema_periods?.getD [200]

/-- `params.get("overbought", 70)`. -/
def Config.rsiOverbought (c : Config) : ℚ := c.rsi_overbought?.getD 70

/-- `params.get("oversold", 30)`. -/
def Config.rsiOversold (c : Config) : ℚ := c.rsi_oversold?.getD 30

/-- `indicator_settings.get("adx", {}).get("threshold", 25)`. -/
def Config.adxThreshold (c : Config) : ℚ := c.adx_threshold?.getD 25

/-- `self.score_weights.get(indicator, 1)`. -/
def Config.weightOf (c : Config) (k : String) : ℚ :=
  (List.lookup k c.score_weights).getD 1

/-- `thresholds.get("reversal_swing", 12)`. -/
def Config.reversalSwing (c : Config) : ℚ := c.reversal_swing?.getD 12

/-- `thresholds.get("trend_continuation", 8)`. -/
def Config.trendContinuation (c : Config) : ℚ := c.trend_continuation?.getD 8

/-- `thresholds.get("momentum_scalp", 5)`. -/
def Config.momentumScalp (c : Config) : ℚ := c.momentum_scalp?.getD 5

/-- A configuration in which nothing is specified: every accessor yields its
documented default. -/
def defaultConfig : Config :=
  { min_data_points? := none, ema_periods? := none, rsi_overbought? := none,
    rsi_oversold? := none, adx_threshold? := none, score_weights := [],
    reversal_swing? := none, trend_continuation? := none,
    momentum_scalp? := none }

/-- The description half of an interpreter output: a text label or a numeric
reading (the Python code stores either a string or a float there). -/
inductive SigVal : Type
  | str (s : String)
  | num (c : Cell)
deriving DecidableEq, Repr

/-- One interpreter output: `{"value": ..., "signal": ...}`. -/
structure Signal where
  value : SigVal
  signal : ℤ
deriving DecidableEq, Repr

/-- The accumulated `analysis_results` dictionary, in insertion order. -/
abbrev AnalysisMap : Type := List (String × Signal)

/-- `analysis.get(key, {}).get("signal")`: `none` models Python `None` when
the key is absent. -/
def optSignal (a : AnalysisMap) (k : String) : Option ℤ :=
  (List.lookup k a).map (fun s => s.signal)

/-- The auxiliary market snapshot assembled by `data_updater_thread`.  The
field `ls_rat` models the snapshot entry named `ls_ratio` in the source. -/
structure DepthBook where
  bids : List (ℚ × ℚ)
  asks : List (ℚ × ℚ)
deriving DecidableEq, Repr

structure MarketData where
  funding_rate : Option ℚ
  open_interest : Option ℚ
  ls_rat : Option ℚ
  depth : Option DepthBook
deriving DecidableEq, Repr

/-
  Model of `scipy.signal.find_peaks(x, distance=10, width=1)`, the only form
  used by `analyze_divergence`.  The loops are transcribed from scipy's
  `_local_maxima_1d`, `_select_by_peak_distance`, `_peak_prominences` and
  `_peak_widths`; each is written with an explicit fuel argument (always called
  with more fuel than the loop can consume, since every iteration advances the
  index) so that concrete runs reduce inside the kernel.  Comparisons go
  through the NaN-aware cell comparisons, reproducing IEEE behaviour on NaN.
-/

/-- Element access in a signal; out-of-range reads never occur on the paths
exercised (scipy indexes the same arrays). -/
def cellAt (x : List Cell) (i : ℕ) : Cell := x.getD i none

/-- Scan to the end of a plateau of value `v`: the first index `j` with
`¬ (j < iMax ∧ x[j] == v)` (scipy `_local_maxima_1d` inner loop). -/
def plateauEnd (x : List Cell) (v : Cell) (iMax : ℕ) : ℕ → ℕ → ℕ
  | 0, j => j
  | fuel + 1, j => if j < iMax ∧ pyEQ (cellAt x j) v then plateauEnd x v iMax fuel (j + 1) else j

/-- scipy `_local_maxima_1d` main loop: midpoints of strict local maxima
(plateaus included), scanning `i = 1 .. iMax - 1`. -/
def lmLoop (x : List Cell) (iMax : ℕ) : ℕ → ℕ → List ℕ
  | 0, _ => []
  | fuel + 1, i =>
    if i < iMax then
      if pyLT (cellAt x (i - 1)) (cellAt x i) then
        let ia := plateauEnd x (cellAt x i) iMax (x.length + 1) (i + 1)
        if pyLT (cellAt x ia) (cellAt x i) then
          (i + (ia - 1)) / 2 :: lmLoop x iMax fuel (ia + 1)
        else lmLoop x iMax fuel (i + 1)
      else lmLoop x iMax fuel (i + 1)
    else []

/-- All local maxima midpoints of a signal, in increasing index order. -/
def localMaxima (x : List Cell) : List ℕ :=
  lmLoop x (x.length - 1) (x.length + 1) 1

/-- Stable insertion (ascending by value, ties by original position) used to
model `np.argsort` of the peak heights; the divergence witnesses below avoid
equal heights, where the unstable numpy sort could differ. -/
def insertAscIdx (vals : List ℚ) (a : ℕ) : List ℕ → List ℕ
  | [] => [a]
  | b :: bs =>
    if vals.getD a 0 < vals.getD b 0 ∨ (vals.getD a 0 = vals.getD b 0 ∧ a ≤ b) then
      a :: b :: bs
    else b :: insertAscIdx vals a bs

/-- Stable argsort of a list of heights, ascending. -/
def argsortAsc (vals : List ℚ) : List ℕ :=
  List.foldr (insertAscIdx vals) [] (List.range vals.length)

/-- Invalidate every other peak within `distance` samples of peak number `j`
(scipy `_select_by_peak_distance` inner loops; the peak positions are in
increasing order, so the contiguous scans equal this mask). -/
def markClose (peaks : List ℕ) (j : ℕ) (distance : ℕ) (keep : List Bool) : List Bool :=
  (List.range keep.length).zipWith
    (fun k b =>
      if k = j then b
      else if Nat.dist (peaks.getD k 0) (peaks.getD j 0) < distance then false
      else b)
    keep

/-- Process peak numbers from highest priority (largest height) downward,
skipping peaks already discarded. -/
def distLoop (peaks : List ℕ) (distance : ℕ) : List ℕ → List Bool → List Bool
  | [], keep => keep
  | j :: rest, keep =>
    if keep.getD j false then distLoop peaks distance rest (markClose peaks j distance keep)
    else distLoop peaks distance rest keep

/-- scipy `_select_by_peak_distance`: the boolean keep-mask. -/
def selectByPeakDistance (peaks : List ℕ) (heights : List ℚ) (distance : ℕ) : List Bool :=
  distLoop peaks distance (argsortAsc heights).reverse (List.replicate peaks.length true)

/-- Left half of scipy `_peak_prominences`: walk left from the peak while the
signal stays at or below the peak height, tracking the running minimum and its
position. -/
def promLeft (x : List Cell) (hpk : ℚ) : ℕ → ℕ → ℚ → ℕ → ℚ × ℕ
  | 0, _, m, b => (m, b)
  | fuel + 1, i, m, b =>
    if 0 < i ∧ pyLE (cellAt x i) (some hpk) then
      let i1 := i - 1
      let c := cellAt x i1
      if pyLT c (some m) then promLeft x hpk fuel i1 (cellVal c m) i1
      else promLeft x hpk fuel i1 m b
    else (m, b)

/-- Right half of scipy `_peak_prominences` (bounded by `iMax = len - 1`). -/
def promRight (x : List Cell) (hpk : ℚ) (iMax : ℕ) : ℕ → ℕ → ℚ → ℕ → ℚ × ℕ
  | 0, _, m, b => (m, b)
  | fuel + 1, i, m, b =>
    if i < iMax ∧ pyLE (cellAt x i) (some hpk) then
      let i1 := i + 1
      let c := cellAt x i1
      if pyLT c (some m) then promRight x hpk iMax fuel i1 (cellVal c m) i1
      else promRight x hpk iMax fuel i1 m b
    else (m, b)

/-- scipy `_peak_prominences` for one peak: (prominence, left base, right
base).  A detected peak value is never NaN (a NaN cell never satisfies the
strict rise/fall comparisons), so reading it with fallback 0 is exact. -/
def peakProminence (x : List Cell) (p : ℕ) : ℚ × ℕ × ℕ :=
  let hq := cellVal (cellAt x p) 0
  let lm := promLeft x hq (x.length + 1) p hq p
  let rm := promRight x hq (x.length - 1) (x.length + 1) p hq p
  (hq - max lm.1 rm.1, lm.2, rm.2)

/-- Walk left from the peak while the signal stays strictly above the
evaluation height (scipy `_peak_widths`). -/
def wLeft (x : List Cell) (height : ℚ) (lb : ℕ) : ℕ → ℕ → ℕ
  | 0, i => i
  | fuel + 1, i =>
    if lb < i ∧ pyLT (some height) (cellAt x i) then wLeft x height lb fuel (i - 1) else i

/-- Walk right from the peak while the signal stays strictly above the
evaluation height. -/
def wRight (x : List Cell) (height : ℚ) (rb : ℕ) : ℕ → ℕ → ℕ
  | 0, i => i
  | fuel + 1, i =>
    if i < rb ∧ pyLT (some height) (cellAt x i) then wRight x height rb fuel (i + 1) else i

/-- scipy `_peak_widths` for one peak at `rel_height = 0.5`: the interpolated
width of the peak at half prominence.  Whenever the interpolation branch is
taken the cells read are non-NaN and the denominator is nonzero, so the
fallback reads are exact. -/
def peakWidth (x : List Cell) (p : ℕ) (prom : ℚ) (lb rb : ℕ) : ℚ :=
  let hq := cellVal (cellAt x p) 0
  let height := hq - prom * (1 / 2)
  let li := wLeft x height lb (x.length + 1) p
  let lip : ℚ :=
    if pyLT (cellAt x li) (some height) then
      (li : ℚ) + (height - cellVal (cellAt x li) 0) /
        (cellVal (cellAt x (li + 1)) 0 - cellVal (cellAt x li) 0)
    else (li : ℚ)
  let ri := wRight x height rb (x.length + 1) p
  let rip : ℚ :=
    if pyLT (cellAt x ri) (some height) then
      (ri : ℚ) - (height - cellVal (cellAt x ri) 0) /
        (cellVal (cellAt x (ri - 1)) 0 - cellVal (cellAt x ri) 0)
    else (ri : ℚ)
  rip - lip

/-- `scipy.signal.find_peaks(x, distance=10, width=1)`: local maxima, then the
distance filter, then the width-at-half-prominence filter (`1 <= width`). -/
def findPeaks10w1 (x : List Cell) : List ℕ :=
  let mids := localMaxima x
  let heights := mids.map (fun p => cellVal (cellAt x p) 0)
  let keep := selectByPeakDistance mids heights 10
  let kept := ((mids.zip keep).filter (fun pb => pb.2)).map (fun pb => pb.1)
  kept.filter (fun p =>
    let pr := peakProminence x p
    decide ((1 : ℚ) ≤ peakWidth x p pr.1 pr.2.1 pr.2.2))

/-
  Per-indicator interpreters (`analyze_*` methods of `AnalysisEngine`), each a
  transcription of the corresponding Python method.  Interpreters whose Python
  body can raise (a bare `row[...]` access, or an `periods[0]` subscript) are
  `Except`-valued; the rest are total.
-/

/-- `EMA_{p}` column-name builder. -/
def emaKey (p : ℕ) : String := "EMA_" ++ toString p

/-- `analyze_ema`: one vote per configured period (+1 when close is above that
EMA, else -1, with a missing column defaulting to close itself); the signal is
the sign of the vote sum.  Raises on a missing close column or, at the label
f-string, on an empty period list. -/
def analyze_ema (cfg : Config) (last : Row) : Except String (String × Signal) := do
  let periods := cfg.emaPeriods
  let close ← Row.item last "close"
  let signal_sum : ℤ :=
    (periods.map (fun p => if pyGT close (Row.getC last (emaKey p) close) then (1 : ℤ) else -1)).sum
  let signal : ℤ := if 0 < signal_sum then 1 else if signal_sum < 0 then -1 else 0
  match periods with
  | [] => .error "IndexError: list index out of range"
  | p0 :: _ =>
    .ok ("ema", ⟨.str ((if signal = 1 then "Fiyat > EMA" else "Fiyat < EMA") ++ toString p0), signal⟩)

/-- `analyze_macd`: +1 when the MACD line is above the signal line (both
defaulting to 0 when the column is absent), else -1. -/
def analyze_macd (last : Row) : String × Signal :=
  let m := Row.getC last "MACD_12_26_9" (some 0)
  let s := Row.getC last "MACDs_12_26_9" (some 0)
  ("macd", ⟨.num (pyRound2 m), if pyGT m s then 1 else -1⟩)

/-- `analyze_rsi`: -1 above overbought, +1 below oversold, else 0; a missing
column reads as 50. -/
def analyze_rsi (cfg : Config) (last : Row) : String × Signal :=
  let rsi_val := Row.getC last "RSI_14" (some 50)
  let signal : ℤ :=
    if pyGT rsi_val (some cfg.rsiOverbought) then -1
    else if pyLT rsi_val (some cfg.rsiOversold) then 1
    else 0
  ("rsi", ⟨.num (pyRound2 rsi_val), signal⟩)

/-- `analyze_stoch_rsi` on the %K column (missing reads as 50). -/
def analyze_stoch_rsi (last : Row) : String × Signal :=
  let k := Row.getC last "STOCHRSIk_14_14_3_3" (some 50)
  let signal : ℤ := if pyGT k (some 80) then -1 else if pyLT k (some 20) then 1 else 0
  ("stoch_rsi", ⟨.num (pyRound2 k), signal⟩)

/-- `analyze_bollinger_bands`: +1 below the lower band, -1 above the upper
band, else 0 (missing bands default to close). -/
def analyze_bollinger_bands (last : Row) : Except String (String × Signal) := do
  let close ← Row.item last "close"
  let signal : ℤ :=
    if pyLT close (Row.getC last "BBL_20_2.0" close) then 1
    else if pyGT close (Row.getC last "BBU_20_2.0" close) then -1
    else 0
  .ok ("bollinger_bands",
    ⟨.str (if signal = 1 then "Alt Bant Altı" else if signal = -1 then "Üst Bant Üstü" else "Bant İçi"),
      signal⟩)

/-- `analyze_cci` (missing reads as 0). -/
def analyze_cci (last : Row) : String × Signal :=
  let v := Row.getC last "CCI_20_0.015" (some 0)
  let signal : ℤ := if pyGT v (some 100) then -1 else if pyLT v (some (-100)) then 1 else 0
  ("cci", ⟨.num (pyRound2 v), signal⟩)

/-- `analyze_adx`: the +DI versus -DI direction gated by the ADX threshold. -/
def analyze_adx (cfg : Config) (last : Row) : String × Signal :=
  let adx_val := Row.getC last "ADX_14" (some 0)
  let plus_di := Row.getC last "DMP_14" (some 0)
  let minus_di := Row.getC last "DMN_14" (some 0)
  let trend_direction : ℤ := if pyGT plus_di minus_di then 1 else -1
  let signal : ℤ := if pyGT adx_val (some cfg.adxThreshold) then trend_direction else 0
  ("adx", ⟨.num (pyRound2 adx_val), signal⟩)

/-- `analyze_williams_r` (missing reads as -50). -/
def analyze_williams_r (last : Row) : String × Signal :=
  let wr := Row.getC last "WILLR_14" (some (-50))
  let signal : ℤ := if pyLT wr (some (-80)) then 1 else if pyGT wr (some (-20)) then -1 else 0
  ("williams_r", ⟨.num (pyRound2 wr), signal⟩)

/-- `analyze_supertrend`: +1 exactly when the direction flag equals 1
(missing reads as 0). -/
def analyze_supertrend (last : Row) : String × Signal :=
  let signal : ℤ := if pyEQ (Row.getC last "SUPERTd_7_3.0" (some 0)) (some 1) then 1 else -1
  ("supertrend", ⟨.str (if signal = 1 then "AL" else "SAT"), signal⟩)

/-- `analyze_vwap`: +1 when close is above the daily VWAP (missing column
defaults to close), else -1. -/
def analyze_vwap (last : Row) : Except String (String × Signal) := do
  let close ← Row.item last "close"
  let signal : ℤ := if pyGT close (Row.getC last "VWAP_D" close) then 1 else -1
  .ok ("vwap", ⟨.str (if signal = 1 then "Üstünde" else "Altında"), signal⟩)

/-- `analyze_ichimoku`: +1 above both cloud bounds, -1 below both, else 0. -/
def analyze_ichimoku (last : Row) : Except String (String × Signal) := do
  let close ← Row.item last "close"
  let is_above_cloud :=
    pyGT close (Row.getC last "ISA_9_26_52" close) && pyGT close (Row.getC last "ISB_9_26_52" close)
  let is_below_cloud :=
    pyLT close (Row.getC last "ISA_9_26_52" close) && pyLT close (Row.getC last "ISB_9_26_52" close)
  let signal : ℤ := if is_above_cloud then 1 else if is_below_cloud then -1 else 0
  .ok ("ichimoku",
    ⟨.str (if signal = 1 then "Bulut Üstü" else if signal = -1 then "Bulut Altı" else "Bulut İçi"),
      signal⟩)

/-- `analyze_obv`: +1 when OBV increased versus the previous row (missing
reads as 0 on both rows). -/
def analyze_obv (last prev : Row) : String × Signal :=
  let signal : ℤ := if pyGT (Row.getC last "OBV" (some 0)) (Row.getC prev "OBV" (some 0)) then 1 else -1
  ("obv", ⟨.str (fmtF0Cell (Row.getC last "OBV" (some 0))), signal⟩)

/-- `analyze_candlestick`: scan the row's `CDL_`-prefixed entries in column
order; the first nonzero flag names the pattern and signs the signal. -/
def analyze_candlestick (last : Row) : String × Signal :=
  let pattern_cols := last.filter (fun kv => pyStartsWith kv.1 "CDL_")
  match pattern_cols.find? (fun kv => cellNE0 kv.2) with
  | none => ("candlestick", ⟨.str "Yok", 0⟩)
  | some kv =>
    ("candlestick", ⟨.str (pyReplace kv.1 "CDL_" ""), if pyGT kv.2 (some 0) then 1 else -1⟩)

/-- `analyze_funding_rate` on the market snapshot (contrarian thresholds at
±0.01). -/
def analyze_funding_rate (market : MarketData) : String × Signal :=
  match market.funding_rate with
  | none => ("funding_rate", ⟨.str "N/A", 0⟩)
  | some fr =>
    ("funding_rate",
      ⟨.num (some fr), if 1/100 < fr then -1 else if fr < -(1/100) then 1 else 0⟩)

/-- `analyze_classical_patterns`: a fixed placeholder entry with signal 0. -/
def analyze_classical_patterns (_df : Table) : String × Signal :=
  ("patterns", ⟨.str "Geliştirilecek", 0⟩)

/-
  `analyze_divergence` and its helpers.
-/

/-- `df['RSI_14'].dropna()` as (original index, value) pairs. -/
def rsiPairs (rsiCol : List Cell) : List (ℕ × ℚ) :=
  (List.range rsiCol.length).filterMap (fun i => (rsiCol.getD i none).map (fun q => (i, q)))

/-- The RSI series after `dropna` (values only, positional). -/
def divRsi (rsiCol : List Cell) : List ℚ := (rsiPairs rsiCol).map (fun p => p.2)

/-- `df[col].loc[rsi.index]`: the price column restricted to the rows where
the RSI is present, in the same order. -/
def divPrice (rsiCol priceCol : List Cell) : List Cell :=
  (rsiPairs rsiCol).map (fun p => priceCol.getD p.1 none)

/-- `l[-1]` of a nonempty list (positional indexing on the restricted
series). -/
def lastOf (l : List ℕ) : ℕ := l.getD (l.length - 1) 0

/-- `l[-2]` of a list with at least two entries. -/
def prevOf (l : List ℕ) : ℕ := l.getD (l.length - 2) 0

/-- The bullish-divergence test of `analyze_divergence`: at least two price
troughs and two RSI troughs (each from `find_peaks` on the negated series),
the last price trough below the previous one, and the last RSI trough above
the previous one. -/
def bullishDivergence (rsiCol lowCol : List Cell) : Bool :=
  let rsi := divRsi rsiCol
  let price := divPrice rsiCol lowCol
  let rsi_troughs := findPeaks10w1 ((rsi.map (fun q => -q)).map some)
  let price_troughs := findPeaks10w1 (price.map cneg)
  decide (2 ≤ price_troughs.length) && decide (2 ≤ rsi_troughs.length)
    && pyLT (price.getD (lastOf price_troughs) none) (price.getD (prevOf price_troughs) none)
    && decide (rsi.getD (prevOf rsi_troughs) 0 < rsi.getD (lastOf rsi_troughs) 0)

/-- The bearish-divergence test: peaks of the high-price and RSI series, last
price peak above the previous one while the last RSI peak is below. -/
def bearishDivergence (rsiCol highCol : List Cell) : Bool :=
  let rsi := divRsi rsiCol
  let price_high := divPrice rsiCol highCol
  let rsi_peaks := findPeaks10w1 (rsi.map some)
  let price_peaks := findPeaks10w1 price_high
  decide (2 ≤ price_peaks.length) && decide (2 ≤ rsi_peaks.length)
    && pyGT (price_high.getD (lastOf price_peaks) none) (price_high.getD (prevOf price_peaks) none)
    && decide (rsi.getD (lastOf rsi_peaks) 0 < rsi.getD (prevOf rsi_peaks) 0)

/-- `analyze_divergence`: neutral when the RSI column is absent; otherwise the
bullish test runs first (on the low-price series), and the bearish test is
consulted only when the bullish one did not fire.  The low column is read
before the bullish test and the high column after it, as in the source. -/
def analyze_divergence (df : Table) : Except String (String × Signal) :=
  match getCol df "RSI_14" with
  | none => .ok ("divergence", ⟨.str "Yok", 0⟩)
  | some rsiCol => do
    let lowCol ← colItem df "low"
    let b := bullishDivergence rsiCol lowCol
    let highCol ← colItem df "high"
    let br := !b && bearishDivergence rsiCol highCol
    .ok ("divergence",
      ⟨.str (if b then "Pozitif Uyumsuzluk" else if br then "Negatif Uyumsuzluk" else "Yok"),
        if b then 1 else if br then -1 else 0⟩)

/-
  `_calculate_manual_vwap` and its group-wise cumulative sums.
-/

/-- Replace the entry for key `d` (or append it) in the running per-day
accumulator. -/
def updateAcc : List (ℤ × ℚ) → ℤ → ℚ → List (ℤ × ℚ)
  | [], d, s => [(d, s)]
  | kv :: rest, d, s => if kv.1 = d then (d, s) :: rest else kv :: updateAcc rest d s

/-- The running sum stored for a date (0 when the date has not occurred). -/
def accVal : List (ℤ × ℚ) → ℤ → ℚ
  | [], _ => 0
  | kv :: rest, d => if kv.1 = d then kv.2 else accVal rest d

/-- Group-wise cumulative sum (`df.groupby(dates)[col].cumsum()`): one running
sum per distinct date; NaN cells produce NaN and are skipped by the
accumulation, as in pandas. -/
def gcsAux (acc : List (ℤ × ℚ)) : List ℤ → List Cell → List Cell
  | d :: ds, c :: cs =>
    match c with
    | none => none :: gcsAux acc ds cs
    | some v =>
      let s := accVal acc d + v
      some s :: gcsAux (updateAcc acc d s) ds cs
  | _, _ => []

/-- `df.groupby(df['timestamp'].dt.date)[col].cumsum()`. -/
def groupCumsum (dates : List ℤ) (xs : List Cell) : List Cell := gcsAux [] dates xs

/-- `_calculate_manual_vwap`: append the typical-price-times-volume column,
its per-day cumulative sum, the per-day cumulative volume, and their ratio as
`VWAP_D`; then drop the three working columns. -/
def calculate_manual_vwap (t : Table) : Except String Table := do
  let high ← colItem t "high"
  let low ← colItem t "low"
  let close ← colItem t "close"
  let volume ← colItem t "volume"
  let tp := (List.zipWith cAdd (List.zipWith cAdd high low) close).map (fun c => cDiv c (some 3))
  let tpv := List.zipWith cMul tp volume
  let dfA := setCol t "TPV" tpv
  let ctpv := groupCumsum t.dates tpv
  let dfB := setCol dfA "Cumulative TPV" ctpv
  let cvol := groupCumsum t.dates volume
  let dfC := setCol dfB "Cumulative Volume" cvol
  let vwap := List.zipWith cDiv ctpv cvol
  let dfD := setCol dfC "VWAP_D" vwap
  .ok (dropCol (dropCol (dropCol dfD "TPV") "Cumulative TPV") "Cumulative Volume")

/-
  Scoring, the trend-safety filter, the classifier and the summary builder.
-/

/-- `calculate_confluence_score`: `int(...)` of the weighted signal sum. -/
def calculate_confluence_score (cfg : Config) (results : AnalysisMap) : ℤ :=
  truncInt ((results.map (fun kv => (kv.2.signal : ℚ) * cfg.weightOf kv.1)).sum)

/-- `_is_signal_safe`: zero scores are always safe; with no long-term EMA
column the check cannot run and passes; otherwise a positive score below (or
negative score above) the long-term EMA is unsafe.  `max()` of an empty period
list and a missing close column raise. -/
def is_signal_safe (cfg : Config) (score : ℤ) (last : Row) : Except String (Bool × String) :=
  if score = 0 then .ok (true, "")
  else
    match cfg.emaPeriodsSafe.max? with
    | none => .error "ValueError: max() arg is an empty sequence"
    | some m =>
      match Row.find? last (emaKey m) with
      | none => .ok (true, "")
      | some ema => do
        let close ← Row.item last "close"
        if 0 < score ∧ pyLT close ema then .ok (false, "Trend Karşıtı")
        else if score < 0 ∧ pyGT close ema then .ok (false, "Trend Karşıtı")
        else .ok (true, "Trend Uyumlu")

/-- `classify_signal_strategy`: first-match classification.  An absent
divergence/candlestick/adx entry yields Python `None`, which compares unequal
to 0, exactly as `optSignal ... ≠ some 0`. -/
def classify_signal_strategy (cfg : Config) (score : ℤ) (analysis : AnalysisMap) : String :=
  let abs_score : ℤ := |score|
  if optSignal analysis "divergence" ≠ some 0 ∨ optSignal analysis "candlestick" ≠ some 0 then
    "Dönüş Formasyonu"
  else if cfg.reversalSwing ≤ (abs_score : ℚ) then "Güçlü Swing"
  else if cfg.trendContinuation ≤ (abs_score : ℚ) ∧ optSignal analysis "adx" ≠ some 0 then
    "Trend Takip"
  else if cfg.momentumScalp ≤ (abs_score : ℚ) then "Momentum Scalp"
  else "Zayıf Sinyal"

/-- Stable descending-by-absolute-contribution insertion, modelling Python's
stable `list.sort(key=abs, reverse=True)`. -/
def insertDesc (a : String × ℚ) : List (String × ℚ) → List (String × ℚ)
  | [] => [a]
  | b :: bs => if |b.2| ≤ |a.2| then a :: b :: bs else b :: insertDesc a bs

/-- `generate_summary_details`: the top three indicators by absolute weighted
contribution, rendered as `NAME(+N)` with `.0f` rounding. -/
def generate_summary_details (cfg : Config) (analysis : AnalysisMap) : String :=
  let contributions :=
    (analysis.filter (fun kv => kv.2.signal ≠ 0)).map
      (fun kv => (pyUpper kv.1, (kv.2.signal : ℚ) * cfg.weightOf kv.1))
  let sorted := List.foldr insertDesc [] contributions
  let top_3 :=
    (sorted.take 3).map
      (fun nv => nv.1 ++ "(" ++ (if 0 < nv.2 then "+" else "") ++ toString (roundHalfEven nv.2) ++ ")")
  if top_3.isEmpty then "Belirgin Sinyal Yok" else String.intercalate ", " top_3

/-- The analysis result dictionary built by `run_full_analysis`. -/
structure FullResult where
  score : ℤ
  strategy : String
  fiyat : Cell
  details : AnalysisMap
  detay_str : String
deriving DecidableEq, Repr

/-- `_generate_empty_result`. -/
def generate_empty_result (reason : String) : FullResult :=
  { score := 0, strategy := reason, fiyat := some 0, details := [], detay_str := reason }

/-- Stage 2 of `run_full_analysis`: run every interpreter against the last
(and previous) row and collect the outputs in dictionary insertion order. -/
def interpretAll (cfg : Config) (df : Table) (last prev : Row) (market : MarketData) :
    Except String AnalysisMap := do
  let e ← analyze_ema cfg last
  let bb ← analyze_bollinger_bands last
  let vw ← analyze_vwap last
  let ich ← analyze_ichimoku last
  let dv ← analyze_divergence df
  .ok [e, analyze_macd last, analyze_rsi cfg last, analyze_stoch_rsi last, bb,
    analyze_cci last, analyze_adx cfg last, analyze_williams_r last,
    analyze_supertrend last, vw, ich, analyze_obv last prev,
    analyze_candlestick last, dv, analyze_classical_patterns df,
    analyze_funding_rate market]

/-- Lines 76-81 of `run_full_analysis`: the strategy label and the final
(possibly halved) score, given the safety verdict. -/
def finalize_score_strategy (cfg : Config) (score : ℤ) (sr : Bool × String)
    (analysis : AnalysisMap) : ℤ × String :=
  let strategy := if sr.1 then classify_signal_strategy cfg score analysis
    else "Riskli (" ++ sr.2 ++ ")"
  (if sr.1 then score else truncInt ((score : ℚ) / 2), strategy)

/-- `run_full_analysis`.  The technical-indicator collaborator (the block of
`klines_df.ta.*` calls) is an oracle parameter; the manual VWAP runs inside
the same guarded region.  A `.error` result models an exception escaping the
Python method (the `iloc` row reads and the safety filter sit outside both
`try` blocks). -/
def run_full_analysis (cfg : Config) (oracle : Table → Except String Table)
    (klines : Option Table) (market : MarketData) : Except String FullResult :=
  match klines with
  | none => .ok (generate_empty_result "Yetersiz veri")
  | some df0 =>
    if df0.nrows < cfg.minDataPoints then .ok (generate_empty_result "Yetersiz veri")
    else
      match (oracle df0).bind calculate_manual_vwap with
      | .error e => .ok (generate_empty_result ("İndikatör Hesaplama Hatası: " ++ e))
      | .ok df =>
        match ilocNeg df 1 with
        | .error e => .error e
        | .ok last =>
          match ilocNeg df 2 with
          | .error e => .error e
          | .ok prev =>
            match interpretAll cfg df last prev market with
            | .error e => .ok (generate_empty_result ("Analiz Yorumlama Hatası: " ++ e))
            | .ok results =>
              let score := calculate_confluence_score cfg results
              match is_signal_safe cfg score last with
              | .error e => .error e
              | .ok sr =>
                let fs := finalize_score_strategy cfg score sr results
                let summary := generate_summary_details cfg results
                match Row.item last "close" with
                | .error e => .error e
                | .ok c =>
                  .ok { score := fs.1, strategy := fs.2, fiyat := c,
                        details := results, detay_str := summary }

/-- The per-symbol entry assembled by `data_updater_thread` (src/main.py lines
45-48): the analysis result, the symbol name, and the raw market-snapshot
fields merged in (no key collisions occur).  The field `ls_rat` carries the
snapshot entry named `ls_ratio` in the source. -/
structure MergedResult where
  score : ℤ
  strategy : String
  fiyat : Cell
  details : AnalysisMap
  detay_str : String
  parite : String
  funding_rate : Option ℚ
  open_interest : Option ℚ
  ls_rat : Option ℚ
  depth : Option DepthBook
deriving DecidableEq, Repr

/-- `data_updater_thread` body for one symbol: run the analysis, then update
the dictionary with the symbol name and the market-snapshot fields. -/
def updater_entry (cfg : Config) (oracle : Table → Except String Table)
    (klines : Option Table) (market : MarketData) (parite : String) :
    Except String MergedResult := do
  let r ← run_full_analysis cfg oracle klines market
  .ok { score := r.score, strategy := r.strategy, fiyat := r.fiyat,
        details := r.details, detay_str := r.detay_str, parite := parite,
        funding_rate := market.funding_rate, open_interest := market.open_interest,
        ls_rat := market.ls_rat, depth := market.depth }

deriving instance DecidableEq for Except

/-
  Specification-side definitions (used to state the claims) and concrete
  example data (used by witnesses and counterexamples).
-/

/-- The specification-side per-day prefix sum: the values at indices `j ≤ i`
whose date equals the date of row `i`. -/
def sameDaySum (dates : List ℤ) (vs : List ℚ) (i : ℕ) : ℚ :=
  ((List.range (i + 1)).map
    (fun j => if (dates[j]?).getD 0 = (dates[i]?).getD 0 then (vs[j]?).getD 0 else 0)).sum

/-- The per-row `typical_price × volume` series,
`((high + low + close) / 3) * volume`. -/
def typicalTimesVol (hs ls cs vs : List ℚ) : List ℚ :=
  List.zipWith (fun tp v => tp * v)
    ((List.zipWith (fun a b => a + b) (List.zipWith (fun a b => a + b) hs ls) cs).map
      (fun q => q / 3)) vs

/-- Modelled from the spec's words, for comparison with the source's
`calculate_confluence_score`: the spec says the score is
`round(Σ signal × weight)`; Python `round` is round-half-to-even. -/
def confluence_score_round_spec (cfg : Config) (results : AnalysisMap) : ℤ :=
  roundHalfEven ((results.map (fun kv => (kv.2.signal : ℚ) * cfg.weightOf kv.1)).sum)

/-- A row holding only a close price: every indicator column is absent. -/
def exRowCloseOnly : Row := [("close", some 100)]

/-- Low-price series with two descending troughs (indices 5 and 17). -/
def exLows : List ℚ :=
  [100, 100, 100, 100, 97, 90, 97, 100, 100, 100, 100, 100,
   100, 100, 100, 100, 96, 88, 96, 100, 100, 100, 100, 100]

/-- Flat high-price series. -/
def exHighs : List ℚ := List.replicate 24 110

/-- RSI series with two ascending troughs at the same indices. -/
def exRsis : List ℚ :=
  [50, 50, 50, 50, 40, 30, 40, 50, 50, 50, 50, 50,
   50, 50, 50, 50, 42, 35, 42, 50, 50, 50, 50, 50]

/-- A table exhibiting a bullish price/RSI divergence. -/
def exTDiv : Table :=
  { dates := List.replicate 24 0,
    cols := [("low", exLows.map some), ("high", exHighs.map some),
             ("RSI_14", exRsis.map some)] }

/-- A minimal two-row candle table (single calendar day). -/
def exT8 : Table :=
  { dates := [0, 0],
    cols := [("high", [some 12, some 13]), ("low", [some 8, some 9]),
             ("close", [some 10, some 11]), ("volume", [some 2, some 3])] }

/-- Configuration with the minimum row count lowered to 2, everything else at
its default. -/
def cfg8 : Config := { defaultConfig with min_data_points? := some 2 }

/-- A concrete market snapshot with no funding-rate reading. -/
def exMarket : MarketData :=
  { funding_rate := none, open_interest := some 5000, ls_rat := some (3/2),
    depth := some { bids := [(100, 1)], asks := [(101, 2)] } }

/-- The full analysis result of `run_full_analysis cfg8 Except.ok (some exT8)
exMarket`, spelled out. -/
def exR8 : FullResult :=
  { score := -3, strategy := "Zayıf Sinyal", fiyat := some 11,
    details := [("ema", ⟨.str "Fiyat < EMA50", -1⟩), ("macd", ⟨.num (some 0), -1⟩),
      ("rsi", ⟨.num (some 50), 0⟩), ("stoch_rsi", ⟨.num (some 50), 0⟩),
      ("bollinger_bands", ⟨.str "Bant İçi", 0⟩), ("cci", ⟨.num (some 0), 0⟩),
      ("adx", ⟨.num (some 0), 0⟩), ("williams_r", ⟨.num (some (-50)), 0⟩),
      ("supertrend", ⟨.str "SAT", -1⟩), ("vwap", ⟨.str "Üstünde", 1⟩),
      ("ichimoku", ⟨.str "Bulut İçi", 0⟩), ("obv", ⟨.str "0", -1⟩),
      ("candlestick", ⟨.str "Yok", 0⟩), ("divergence", ⟨.str "Yok", 0⟩),
      ("patterns", ⟨.str "Geliştirilecek", 0⟩), ("funding_rate", ⟨.str "N/A", 0⟩)],
    detay_str := "EMA(-1), MACD(-1), SUPERTREND(-1)" }

/-- A two-day candle table for the VWAP day-boundary witness: rows 0-1 on day
0, rows 2-3 on day 1. -/
def exT7 : Table :=
  { dates := [0, 0, 1, 1],
    cols := [("high", [some 12, some 13, some 21, some 30]),
             ("low", [some 8, some 9, some 15, some 20]),
             ("close", [some 10, some 11, some 18, some 25]),
             ("volume", [some 2, some 3, some 4, some 1])] }

/-- A candle table that already carries a column named `VWAP_D`. -/
def exT9 : Table :=
  { dates := [0],
    cols := [("high", [some 10]), ("low", [some 8]), ("close", [some 9]),
             ("volume", [some 2]), ("VWAP_D", [some 7])] }

/-- What `_calculate_manual_vwap` produces on `exT9`: the same five columns,
with the pre-existing `VWAP_D` values overwritten in place. -/
def exT9Result : Table :=
  { dates := [0],
    cols := [("high", [some 10]), ("low", [some 8]), ("close", [some 9]),
             ("volume", [some 2]), ("VWAP_D", [some 9])] }

/-- Weights making the confluence sum non-integral (`rsi` weighted 8/5). -/
def cfgFrac : Config := { defaultConfig with score_weights := [("rsi", 8/5)] }

/-- A single bullish RSI vote. -/
def exResFrac : AnalysisMap := [("rsi", ⟨.str "x", 1⟩)]

/-- Integer weights: `rsi` counts twice. -/
def cfgInt : Config := { defaultConfig with score_weights := [("rsi", 2)] }

/-- The spec's example signal map: rsi +1 (weight 2), macd -1 (weight 1). -/
def exResInt : AnalysisMap := [("rsi", ⟨.str "x", 1⟩), ("macd", ⟨.str "y", -1⟩)]

/-
  Lemmas: closed form of the group-wise cumulative sum, table surgery, and
  cell arithmetic on fully present columns.
-/

lemma accVal_updateAcc (acc : List (ℤ × ℚ)) (d e : ℤ) (s : ℚ) :
    accVal (updateAcc acc d s) e = if d = e then s else accVal acc e := by
  induction acc with
  | nil => simp [updateAcc, accVal]
  | cons kv rest ih =>
    by_cases hkd : kv.1 = d
    · by_cases hde : d = e <;> simp [updateAcc, accVal, hkd, hde]
    · by_cases hke : kv.1 = e
      · have hde : ¬ d = e := fun h => hkd (h ▸ hke)
        have hed : ¬ e = d := fun h => hde h.symm
        simp [updateAcc, accVal, hkd, hke, hde, hed]
      · simp [updateAcc, accVal, hkd, hke, ih]

lemma sameDaySum_zero (d : ℤ) (ds : List ℤ) (v : ℚ) (vs : List ℚ) :
    sameDaySum (d :: ds) (v :: vs) 0 = v := by
  rw [sameDaySum, show List.range 1 = [0] from rfl]
  simp

lemma sameDaySum_succ (d : ℤ) (ds : List ℤ) (v : ℚ) (vs : List ℚ) (j : ℕ) :
    sameDaySum (d :: ds) (v :: vs) (j + 1) =
      (if d = (ds[j]?).getD 0 then v else 0) + sameDaySum ds vs j := by
  simp only [sameDaySum, List.range_succ_eq_map, List.map_map, List.map_cons, List.sum_cons,
    Function.comp, List.getElem?_cons_succ, List.getElem?_cons_zero, Option.getD_some]
  congr 3
  exact List.map_congr_left (fun k hk => by simp [Function.comp])

lemma gcsAux_get (ds : List ℤ) (vs : List ℚ) (acc : List (ℤ × ℚ)) (i : ℕ)
    (hi : i < ds.length) (hl : vs.length = ds.length) :
    (gcsAux acc ds (vs.map some))[i]? =
      some (some (accVal acc ((ds[i]?).getD 0) + sameDaySum ds vs i)) := by
  induction ds generalizing vs acc i with
  | nil => simp at hi
  | cons d ds ih =>
    cases vs with
    | nil => simp at hl
    | cons v vs =>
      cases i with
      | zero =>
        simp [gcsAux, sameDaySum_zero]
      | succ j =>
        have hj : j < ds.length := by simpa using hi
        have hlj : vs.length = ds.length := by simpa using hl
        have step : (gcsAux acc (d :: ds) ((v :: vs).map some))[j + 1]? =
            (gcsAux (updateAcc acc d (accVal acc d + v)) ds (vs.map some))[j]? := by
          simp [gcsAux]
        rw [step, ih vs _ j hj hlj, sameDaySum_succ]
        have hgd : ((d :: ds)[j + 1]?).getD 0 = (ds[j]?).getD 0 := by simp
        rw [hgd, accVal_updateAcc]
        by_cases hde : d = (ds[j]?).getD 0
        · simp [hde]
          ring
        · simp [hde]

lemma groupCumsum_get (ds : List ℤ) (vs : List ℚ) (i : ℕ)
    (hi : i < ds.length) (hl : vs.length = ds.length) :
    (groupCumsum ds (vs.map some))[i]? = some (some (sameDaySum ds vs i)) := by
  rw [groupCumsum, gcsAux_get ds vs [] i hi hl]
  simp [accVal]

/-
  Table-surgery lemmas for `_calculate_manual_vwap`.
-/

lemma dates_setCol (t : Table) (k : String) (v : List Cell) : (setCol t k v).dates = t.dates := by
  unfold setCol
  split <;> rfl

lemma dates_dropCol (t : Table) (k : String) : (dropCol t k).dates = t.dates := rfl

lemma lookup_map_replace (cols : List (String × List Cell)) (k : String) (v : List Cell)
    (h : (cols.map Prod.fst).contains k = true) :
    List.lookup k (cols.map (fun kv => cond (kv.1 == k) (k, v) kv)) = some v := by
  induction cols with
  | nil => simp at h
  | cons kv rest ih =>
    obtain ⟨n, w⟩ := kv
    by_cases hk : n = k
    · subst hk
      simp [List.lookup]
    · have hr : (rest.map Prod.fst).contains k = true := by
        simp only [List.map_cons, List.contains_cons] at h
        rcases Bool.or_eq_true_iff.mp h with h1 | h1
        · exact absurd (beq_iff_eq.mp h1).symm hk
        · exact h1
      have hke : (k == n) = false := beq_eq_false_iff_ne.mpr (fun h2 => hk h2.symm)
      have hne : (n == k) = false := beq_eq_false_iff_ne.mpr hk
      simp [List.lookup, hke, hne, ih hr]

lemma lookup_append_single (cols : List (String × List Cell)) (k : String) (v : List Cell)
    (h : (cols.map Prod.fst).contains k = false) :
    List.lookup k (cols ++ [(k, v)]) = some v := by
  induction cols with
  | nil => simp [List.lookup]
  | cons kv rest ih =>
    obtain ⟨n, w⟩ := kv
    simp only [List.map_cons, List.contains_cons, Bool.or_eq_false_iff] at h
    simp [List.lookup, h.1, ih h.2]

lemma lookup_filter_ne (cols : List (String × List Cell)) (k k' : String) (h : ¬ k' = k) :
    List.lookup k' (cols.filter (fun kv => !(kv.1 == k))) = List.lookup k' cols := by
  induction cols with
  | nil => rfl
  | cons kv rest ih =>
    obtain ⟨n, w⟩ := kv
    by_cases hk : n = k
    · subst hk
      have hke : (k' == n) = false := beq_eq_false_iff_ne.mpr h
      simp [List.filter_cons, List.lookup, hke, ih]
    · have hne : (n == k) = false := beq_eq_false_iff_ne.mpr hk
      by_cases hk2 : k' = n
      · subst hk2
        simp [List.filter_cons, List.lookup, hne]
      · have hke : (k' == n) = false := beq_eq_false_iff_ne.mpr hk2
        simp [List.filter_cons, List.lookup, hne, hke, ih]

lemma getCol_setCol_self (t : Table) (k : String) (v : List Cell) :
    getCol (setCol t k v) k = some v := by
  unfold setCol getCol
  split
  · next h => exact lookup_map_replace t.cols k v h
  · next h => exact lookup_append_single t.cols k v (by simpa using h)

lemma getCol_dropCol_ne (t : Table) (k k' : String) (h : ¬ k' = k) :
    getCol (dropCol t k) k' = getCol t k' := by
  unfold dropCol getCol
  exact lookup_filter_ne t.cols k k' h

/-
  The cell-level arithmetic on fully present (non-NaN) columns is the plain
  rational arithmetic.
-/

lemma zipWith_cAdd_map_some (xs ys : List ℚ) :
    List.zipWith cAdd (xs.map some) (ys.map some) =
      (List.zipWith (fun a b => a + b) xs ys).map some := by
  induction xs generalizing ys with
  | nil => simp
  | cons x xs ih =>
    cases ys with
    | nil => simp
    | cons y ys => simp [cAdd, ih]

lemma zipWith_cMul_map_some (xs ys : List ℚ) :
    List.zipWith cMul (xs.map some) (ys.map some) =
      (List.zipWith (fun a b => a * b) xs ys).map some := by
  induction xs generalizing ys with
  | nil => simp
  | cons x xs ih =>
    cases ys with
    | nil => simp
    | cons y ys => simp [cMul, ih]

lemma map_cDiv3_map_some (xs : List ℚ) :
    (xs.map some).map (fun c => cDiv c (some 3)) = (xs.map (fun q => q / 3)).map some := by
  induction xs with
  | nil => rfl
  | cons x xs ih => simp [cDiv, ih]


/-- C7: for every row of the candle table, the computed daily VWAP value
equals `(Σ typical_price × volume) / (Σ volume)` taken over the rows of the
same calendar day up to and including that row, with
`typical_price = (high+low+close)/3`; the per-day prefix sums restart at every
calendar-day change, so no accumulation leaks across days. -/
theorem C7_vwap_daily_prefix (t : Table) (hs ls cs vs : List ℚ)
    (hh : getCol t "high" = some (hs.map some)) (hl : getCol t "low" = some (ls.map some))
    (hc : getCol t "close" = some (cs.map some)) (hv : getCol t "volume" = some (vs.map some))
    (hhn : hs.length = t.dates.length) (hln : ls.length = t.dates.length)
    (hcn : cs.length = t.dates.length) (hvn : vs.length = t.dates.length)
    (i : ℕ) (hi : i < t.dates.length) (hden : sameDaySum t.dates vs i ≠ 0) :
    ∃ t', calculate_manual_vwap t = .ok t' ∧
      (getCol t' "VWAP_D").bind (fun w => w[i]?) =
        some (some (sameDaySum t.dates (typicalTimesVol hs ls cs vs) i /
          sameDaySum t.dates vs i)) := by
  have htpv : List.zipWith cMul
      (((List.zipWith cAdd (List.zipWith cAdd (hs.map some) (ls.map some)) (cs.map some)).map
        (fun c => cDiv c (some 3)))) (vs.map some) = (typicalTimesVol hs ls cs vs).map some := by
    rw [zipWith_cAdd_map_some, zipWith_cAdd_map_some, map_cDiv3_map_some, zipWith_cMul_map_some]
    rfl
  have hlen : (typicalTimesVol hs ls cs vs).length = t.dates.length := by
    simp [typicalTimesVol, hhn, hln, hcn, hvn]
  have hrun : calculate_manual_vwap t = .ok
      (dropCol (dropCol (dropCol (setCol (setCol (setCol (setCol t "TPV"
        ((typicalTimesVol hs ls cs vs).map some)) "Cumulative TPV"
        (groupCumsum t.dates ((typicalTimesVol hs ls cs vs).map some))) "Cumulative Volume"
        (groupCumsum t.dates (vs.map some))) "VWAP_D"
        (List.zipWith cDiv (groupCumsum t.dates ((typicalTimesVol hs ls cs vs).map some))
          (groupCumsum t.dates (vs.map some)))) "TPV") "Cumulative TPV") "Cumulative Volume") := by
    simp only [calculate_manual_vwap, colItem, hh, hl, hc, hv, Bind.bind, Except.bind]
    rw [htpv]
  refine ⟨_, hrun, ?_⟩
  rw [getCol_dropCol_ne _ _ _ (by decide), getCol_dropCol_ne _ _ _ (by decide),
    getCol_dropCol_ne _ _ _ (by decide), getCol_setCol_self]
  have hct : (groupCumsum t.dates ((typicalTimesVol hs ls cs vs).map some))[i]? =
      some (some (sameDaySum t.dates (typicalTimesVol hs ls cs vs) i)) :=
    groupCumsum_get t.dates (typicalTimesVol hs ls cs vs) i hi hlen
  have hcv : (groupCumsum t.dates (vs.map some))[i]? =
      some (some (sameDaySum t.dates vs i)) :=
    groupCumsum_get t.dates vs i hi hvn
  simp [List.getElem?_zipWith', hct, hcv, cDiv, hden]

/-- C7 witness: on a concrete two-day table, the VWAP of the first row of day
1 is computed from day 1 alone (the day-0 accumulation does not leak). -/
theorem C7_vwap_daily_prefix_witness :
    ∃ t', calculate_manual_vwap exT7 = .ok t' ∧
      (getCol t' "VWAP_D").bind (fun w => w[2]?) = some (some 18) := by
  obtain ⟨t', h1, h2⟩ := C7_vwap_daily_prefix exT7
    [12, 13, 21, 30] [8, 9, 15, 20] [10, 11, 18, 25] [2, 3, 4, 1]
    (by decide) (by decide) (by decide) (by decide)
    (by decide) (by decide) (by decide) (by decide)
    2 (by decide) (by decide)
  refine ⟨t', h1, ?_⟩
  rw [h2]
  have : sameDaySum exT7.dates
      (typicalTimesVol [12, 13, 21, 30] [8, 9, 15, 20] [10, 11, 18, 25] [2, 3, 4, 1]) 2 /
      sameDaySum exT7.dates [2, 3, 4, 1] 2 = 18 := by decide
  rw [this]

lemma decide_eq_beq (a b : String) : decide (a = b) = (a == b) := by
  by_cases h : a = b <;> simp [h]

lemma contains_append_singleton (names : List String) (n k : String) :
    (names ++ [n]).contains k = (names.contains k || (k == n)) := by
  induction names with
  | nil => simp [List.contains_cons, decide_eq_beq]
  | cons m rest ih => simp [List.contains_cons, ih, Bool.or_assoc, decide_eq_beq]

lemma filter_fresh (cols : List (String × List Cell)) (k : String)
    (h : (cols.map Prod.fst).contains k = false) :
    cols.filter (fun kv => !(kv.1 == k)) = cols := by
  induction cols with
  | nil => rfl
  | cons kv rest ih =>
    obtain ⟨n, w⟩ := kv
    simp only [List.map_cons, List.contains_cons, Bool.or_eq_false_iff] at h
    have hnk : (n == k) = false :=
      beq_eq_false_iff_ne.mpr (fun hnk => by simp [hnk] at h)
    simp [List.filter_cons, hnk, ih h.2]

/-- C9 (amended): provided none of the working column names `TPV`,
`Cumulative TPV`, `Cumulative Volume`, `VWAP_D` already occurs in the table,
`_calculate_manual_vwap` appends exactly one new column (`VWAP_D`) and leaves
the values and relative order of every pre-existing column unchanged; the
three temporary columns are absent from the result. -/
theorem C9_vwap_frame_effect (t : Table) (H L C V : List Cell)
    (hh : getCol t "high" = some H) (hl : getCol t "low" = some L)
    (hc : getCol t "close" = some C) (hv : getCol t "volume" = some V)
    (hf : ∀ k ∈ ["TPV", "Cumulative TPV", "Cumulative Volume", "VWAP_D"],
      (t.cols.map Prod.fst).contains k = false) :
    ∃ w, calculate_manual_vwap t =
      .ok { dates := t.dates, cols := t.cols ++ [("VWAP_D", w)] } := by
  have h1 : (t.cols.map Prod.fst).contains "TPV" = false := hf _ (by decide)
  have h2 : (t.cols.map Prod.fst).contains "Cumulative TPV" = false := hf _ (by decide)
  have h3 : (t.cols.map Prod.fst).contains "Cumulative Volume" = false := hf _ (by decide)
  have h4 : (t.cols.map Prod.fst).contains "VWAP_D" = false := hf _ (by decide)
  have b21 : ("Cumulative TPV" == "TPV") = false := by decide
  have b31 : ("Cumulative Volume" == "TPV") = false := by decide
  have b32 : ("Cumulative Volume" == "Cumulative TPV") = false := by decide
  have b41 : ("VWAP_D" == "TPV") = false := by decide
  have b42 : ("VWAP_D" == "Cumulative TPV") = false := by decide
  have b43 : ("VWAP_D" == "Cumulative Volume") = false := by decide
  set tpvE := List.zipWith cMul
    ((List.zipWith cAdd (List.zipWith cAdd H L) C).map (fun c => cDiv c (some 3))) V with htpvE
  set ctpvE := groupCumsum t.dates tpvE with hctpvE
  set cvolE := groupCumsum t.dates V with hcvolE
  set vwapE := List.zipWith cDiv ctpvE cvolE with hvwapE
  refine ⟨vwapE, ?_⟩
  have e1 : setCol t "TPV" tpvE = ⟨t.dates, t.cols ++ [("TPV", tpvE)]⟩ := by
    rw [setCol, if_neg (by rw [h1]; exact Bool.false_ne_true)]
  have e2 : setCol (⟨t.dates, t.cols ++ [("TPV", tpvE)]⟩ : Table) "Cumulative TPV" ctpvE =
      ⟨t.dates, (t.cols ++ [("TPV", tpvE)]) ++ [("Cumulative TPV", ctpvE)]⟩ := by
    rw [setCol, if_neg (by simp only [List.map_append, List.map_cons, List.map_nil,
      contains_append_singleton, h2, b21, Bool.false_or, Bool.or_false]; exact Bool.false_ne_true)]
  have e3 : setCol (⟨t.dates, (t.cols ++ [("TPV", tpvE)]) ++ [("Cumulative TPV", ctpvE)]⟩ : Table)
      "Cumulative Volume" cvolE =
      ⟨t.dates, ((t.cols ++ [("TPV", tpvE)]) ++ [("Cumulative TPV", ctpvE)]) ++
        [("Cumulative Volume", cvolE)]⟩ := by
    rw [setCol, if_neg (by simp only [List.map_append, List.map_cons, List.map_nil,
      contains_append_singleton, h3, b31, b32, Bool.false_or, Bool.or_false]; exact Bool.false_ne_true)]
  have e4 : setCol (⟨t.dates, ((t.cols ++ [("TPV", tpvE)]) ++ [("Cumulative TPV", ctpvE)]) ++
      [("Cumulative Volume", cvolE)]⟩ : Table) "VWAP_D" vwapE =
      ⟨t.dates, (((t.cols ++ [("TPV", tpvE)]) ++ [("Cumulative TPV", ctpvE)]) ++
        [("Cumulative Volume", cvolE)]) ++ [("VWAP_D", vwapE)]⟩ := by
    rw [setCol, if_neg (by simp only [List.map_append, List.map_cons, List.map_nil,
      contains_append_singleton, h4, b41, b42, b43, Bool.false_or, Bool.or_false]; exact Bool.false_ne_true)]
  have d1 : dropCol (⟨t.dates, (((t.cols ++ [("TPV", tpvE)]) ++ [("Cumulative TPV", ctpvE)]) ++
      [("Cumulative Volume", cvolE)]) ++ [("VWAP_D", vwapE)]⟩ : Table) "TPV" =
      ⟨t.dates, ((t.cols ++ [("Cumulative TPV", ctpvE)]) ++
        [("Cumulative Volume", cvolE)]) ++ [("VWAP_D", vwapE)]⟩ := by
    rw [dropCol]
    simp [List.filter_append, filter_fresh _ _ h1, List.filter_cons, b21, b31, b41]
  have d2 : dropCol (⟨t.dates, ((t.cols ++ [("Cumulative TPV", ctpvE)]) ++
      [("Cumulative Volume", cvolE)]) ++ [("VWAP_D", vwapE)]⟩ : Table) "Cumulative TPV" =
      ⟨t.dates, (t.cols ++ [("Cumulative Volume", cvolE)]) ++ [("VWAP_D", vwapE)]⟩ := by
    rw [dropCol]
    simp [List.filter_append, filter_fresh _ _ h2, List.filter_cons, b32, b42]
  have d3 : dropCol (⟨t.dates, (t.cols ++ [("Cumulative Volume", cvolE)]) ++
      [("VWAP_D", vwapE)]⟩ : Table) "Cumulative Volume" =
      ⟨t.dates, t.cols ++ [("VWAP_D", vwapE)]⟩ := by
    rw [dropCol]
    simp [List.filter_append, filter_fresh _ _ h3, List.filter_cons, b43]
  simp only [calculate_manual_vwap, colItem, hh, hl, hc, hv, Bind.bind, Except.bind]
  rw [← htpvE, ← hctpvE, ← hcvolE, ← hvwapE, e1, e2, e3, e4, d1, d2, d3]

/-- C9 witness: on a concrete table with no reserved names, the VWAP column is
appended and nothing else changes. -/
theorem C9_vwap_frame_effect_witness :
    ∃ w, calculate_manual_vwap exT8 =
      .ok { dates := exT8.dates, cols := exT8.cols ++ [("VWAP_D", w)] } :=
  C9_vwap_frame_effect exT8 [some 12, some 13] [some 8, some 9] [some 10, some 11]
    [some 2, some 3] (by decide) (by decide) (by decide) (by decide) (by decide)

/-- C9 counterexample to the unconditional claim: on a table that already has
a `VWAP_D` column, `_calculate_manual_vwap` adds no new column at all — it
overwrites the existing `VWAP_D` values in place. -/
theorem C9_vwap_frame_effect_cex :
    calculate_manual_vwap exT9 = .ok exT9Result ∧
      exT9Result.cols.map Prod.fst = exT9.cols.map Prod.fst ∧
      getCol exT9Result "VWAP_D" ≠ getCol exT9 "VWAP_D" := by decide

lemma truncInt_intCast (m : ℤ) : truncInt (m : ℚ) = m := by
  rw [truncInt]
  split <;> simp

/-- C2 (amended): `calculate_confluence_score` returns `int(Σ signal ×
weight)` — truncation toward zero, not `round` — with an indicator absent
from the weight map weighted 1; when every involved weight is an integer the
score equals the exact weighted sum. -/
theorem C2_confluence_score (cfg : Config) (results : AnalysisMap) :
    calculate_confluence_score cfg results =
      truncInt ((results.map (fun kv => (kv.2.signal : ℚ) * cfg.weightOf kv.1)).sum) ∧
    ((∀ kv ∈ results, ∃ n : ℤ, cfg.weightOf kv.1 = (n : ℚ)) →
      (calculate_confluence_score cfg results : ℚ) =
        (results.map (fun kv => (kv.2.signal : ℚ) * cfg.weightOf kv.1)).sum) := by
  constructor
  · rfl
  · intro h
    have key : ∀ rs : AnalysisMap, (∀ kv ∈ rs, ∃ n : ℤ, cfg.weightOf kv.1 = (n : ℚ)) →
        ∃ m : ℤ, (rs.map (fun kv => (kv.2.signal : ℚ) * cfg.weightOf kv.1)).sum = (m : ℚ) := by
      intro rs
      induction rs with
      | nil => exact fun _ => ⟨0, by simp⟩
      | cons kv rest ih =>
        intro hr
        obtain ⟨n, hn⟩ := hr kv (List.mem_cons_self kv rest)
        obtain ⟨m, hm⟩ := ih (fun x hx => hr x (List.mem_cons_of_mem kv hx))
        refine ⟨kv.2.signal * n + m, ?_⟩
        simp only [List.map_cons, List.sum_cons, hn, hm]
        push_cast
        ring
    obtain ⟨m, hm⟩ := key results h
    rw [calculate_confluence_score, hm, truncInt_intCast]

/-- C2 witness: with integer weights `{rsi: 2}` and the spec's example map
`{rsi:+1, macd:-1}` the score is the exact weighted sum 1. -/
theorem C2_confluence_score_witness :
    (∀ kv ∈ exResInt, ∃ n : ℤ, cfgInt.weightOf kv.1 = (n : ℚ)) ∧
    calculate_confluence_score cfgInt exResInt = 1 ∧
    (calculate_confluence_score cfgInt exResInt : ℚ) =
      (exResInt.map (fun kv => (kv.2.signal : ℚ) * cfgInt.weightOf kv.1)).sum := by
  have hint : ∀ kv ∈ exResInt, ∃ n : ℤ, cfgInt.weightOf kv.1 = (n : ℚ) := by
    intro kv hkv
    simp only [exResInt, List.mem_cons, List.not_mem_nil, or_false] at hkv
    rcases hkv with h | h
    · subst h
      exact ⟨2, by decide⟩
    · subst h
      exact ⟨1, by decide⟩
  exact ⟨hint, by decide, (C2_confluence_score cfgInt exResInt).2 hint⟩

/-- C2 counterexample to the claim as stated: with the fractional weight 8/5
on a single +1 signal, the code's `int()` gives 1 while the claimed
`round()` gives 2. -/
theorem C2_confluence_score_cex :
    calculate_confluence_score cfgFrac exResFrac = 1 ∧
    confluence_score_round_spec cfgFrac exResFrac = 2 ∧
    calculate_confluence_score cfgFrac exResFrac ≠
      confluence_score_round_spec cfgFrac exResFrac := by decide

/-- C3: the trend-safety filter is always safe (empty reason) on score 0 or
when the long-term EMA column (for the maximum configured period) is absent;
a positive score below — or a negative score above — that EMA is unsafe with
the counter-trend reason, in which case the reported strategy is
`Riskli (<reason>)` for every analysis map (the classifier is never
consulted) and the final score is `int(score / 2)`, truncation toward zero;
otherwise the filter answers trend-aligned and the score is unchanged. -/
theorem C3_trend_safety (cfg : Config) (score : ℤ) (last : Row) :
    (is_signal_safe cfg 0 last = .ok (true, "")) ∧
    (∀ m, score ≠ 0 → cfg.emaPeriodsSafe.max? = some m →
      Row.find? last (emaKey m) = none →
      is_signal_safe cfg score last = .ok (true, "")) ∧
    (∀ m ema c, score ≠ 0 → cfg.emaPeriodsSafe.max? = some m →
      Row.find? last (emaKey m) = some ema → Row.item last "close" = .ok c →
      ((0 < score → pyLT c ema = true →
          is_signal_safe cfg score last = .ok (false, "Trend Karşıtı")) ∧
       (score < 0 → pyGT c ema = true →
          is_signal_safe cfg score last = .ok (false, "Trend Karşıtı")) ∧
       (¬ (0 < score ∧ pyLT c ema = true) → ¬ (score < 0 ∧ pyGT c ema = true) →
          is_signal_safe cfg score last = .ok (true, "Trend Uyumlu")))) ∧
    (∀ analysis reason, finalize_score_strategy cfg score (false, reason) analysis =
      (truncInt ((score : ℚ) / 2), "Riskli (" ++ reason ++ ")")) ∧
    (∀ analysis, finalize_score_strategy cfg score (true, "Trend Uyumlu") analysis =
      (score, classify_signal_strategy cfg score analysis)) := by
  refine ⟨by simp [is_signal_safe], ?_, ?_, ?_, ?_⟩
  · intro m hs hm hf
    simp [is_signal_safe, hs, hm, hf]
  · intro m ema c hs hm hf hc
    refine ⟨?_, ?_, ?_⟩
    · intro h0 hlt
      simp [is_signal_safe, hs, hm, hf, hc, Bind.bind, Except.bind, h0, hlt]
    · intro h0 hgt
      have hn : ¬ 0 < score := not_lt.mpr (le_of_lt h0)
      simp [is_signal_safe, hs, hm, hf, hc, Bind.bind, Except.bind, hn, h0, hgt]
    · intro hn1 hn2
      simp only [is_signal_safe, hs, hm, hf, hc, Bind.bind, Except.bind, if_neg hs]
      rw [if_neg hn1, if_neg hn2]
      simp
  · intro analysis reason
    simp [finalize_score_strategy]
  · intro analysis
    simp [finalize_score_strategy]

/-- C3 witness: score -5 with close 300 above EMA_200 = 250 is counter-trend;
the reported pair is the halved score `int(-5/2) = -2` (truncation toward
zero) and the `Riskli` label, independent of the analysis map. -/
theorem C3_trend_safety_witness :
    is_signal_safe defaultConfig (-5) [("close", some 300), ("EMA_200", some 250)] =
      .ok (false, "Trend Karşıtı") ∧
    finalize_score_strategy defaultConfig (-5) (false, "Trend Karşıtı") [] =
      (-2, "Riskli (Trend Karşıtı)") ∧
    truncInt ((-5 : ℚ) / 2) = -2 := by
  refine ⟨?_, ?_, by decide⟩
  · exact ((C3_trend_safety defaultConfig (-5)
      [("close", some 300), ("EMA_200", some 250)]).2.2.1 200 (some 250) (some 300)
      (by decide) (by decide) (by decide) (by decide)).2.1 (by decide) (by decide)
  · have h := (C3_trend_safety defaultConfig (-5)
      [("close", some 300), ("EMA_200", some 250)]).2.2.2.1 [] "Trend Karşıtı"
    rw [h]
    decide

/-- C4: `classify_signal_strategy` decides by first match: a nonzero
divergence or candlestick signal yields the reversal label even when `|score|`
is at or above the reversal-swing threshold; otherwise `|score| ≥
reversal_swing` yields the strong-swing label; otherwise `|score| ≥
trend_continuation` together with a nonzero ADX signal yields the
trend-follow label; otherwise `|score| ≥ momentum_scalp` yields the
momentum-scalp label; otherwise the weak-signal label. -/
theorem C4_classifier_order (cfg : Config) (score : ℤ) (analysis : AnalysisMap)
    (dS cS aS : Signal)
    (hd : List.lookup "divergence" analysis = some dS)
    (hc : List.lookup "candlestick" analysis = some cS)
    (ha : List.lookup "adx" analysis = some aS) :
    ((dS.signal ≠ 0 ∨ cS.signal ≠ 0) →
      classify_signal_strategy cfg score analysis = "Dönüş Formasyonu") ∧
    (dS.signal = 0 → cS.signal = 0 → cfg.reversalSwing ≤ ((|score| : ℤ) : ℚ) →
      classify_signal_strategy cfg score analysis = "Güçlü Swing") ∧
    (dS.signal = 0 → cS.signal = 0 → ¬ cfg.reversalSwing ≤ ((|score| : ℤ) : ℚ) →
      cfg.trendContinuation ≤ ((|score| : ℤ) : ℚ) → aS.signal ≠ 0 →
      classify_signal_strategy cfg score analysis = "Trend Takip") ∧
    (dS.signal = 0 → cS.signal = 0 → ¬ cfg.reversalSwing ≤ ((|score| : ℤ) : ℚ) →
      ¬ (cfg.trendContinuation ≤ ((|score| : ℤ) : ℚ) ∧ aS.signal ≠ 0) →
      cfg.momentumScalp ≤ ((|score| : ℤ) : ℚ) →
      classify_signal_strategy cfg score analysis = "Momentum Scalp") ∧
    (dS.signal = 0 → cS.signal = 0 → ¬ cfg.reversalSwing ≤ ((|score| : ℤ) : ℚ) →
      ¬ (cfg.trendContinuation ≤ ((|score| : ℤ) : ℚ) ∧ aS.signal ≠ 0) →
      ¬ cfg.momentumScalp ≤ ((|score| : ℤ) : ℚ) →
      classify_signal_strategy cfg score analysis = "Zayıf Sinyal") := by
  refine ⟨?_, ?_, ?_, ?_, ?_⟩
  · intro h
    rcases h with h | h <;>
      simp [classify_signal_strategy, optSignal, hd, hc, h]
  · intro h1 h2 h3
    simp only [classify_signal_strategy, optSignal, hd, hc, Option.map_some]
    rw [if_neg (by simp [h1, h2]), if_pos h3]
  · intro h1 h2 h3 h4 h5
    simp only [classify_signal_strategy, optSignal, hd, hc, ha, Option.map_some]
    rw [if_neg (by simp [h1, h2]), if_neg h3, if_pos ⟨h4, by simpa using h5⟩]
  · intro h1 h2 h3 h4 h5
    simp only [classify_signal_strategy, optSignal, hd, hc, ha, Option.map_some]
    rw [if_neg (by simp [h1, h2]), if_neg h3, if_neg (by
      intro hcon
      exact h4 ⟨hcon.1, by simpa using hcon.2⟩), if_pos h5]
  · intro h1 h2 h3 h4 h5
    simp only [classify_signal_strategy, optSignal, hd, hc, ha, Option.map_some]
    rw [if_neg (by simp [h1, h2]), if_neg h3, if_neg (by
      intro hcon
      exact h4 ⟨hcon.1, by simpa using hcon.2⟩), if_neg h5]

/-- C4 witness: with divergence signal +1 and `|score| = 15 ≥ 12`, the result
is still the reversal-pattern label — the divergence check takes priority
over the strong-swing case. -/
theorem C4_classifier_order_witness :
    classify_signal_strategy defaultConfig 15
      [("divergence", ⟨.str "Pozitif Uyumsuzluk", 1⟩), ("candlestick", ⟨.str "Yok", 0⟩),
       ("adx", ⟨.num (some 30), 1⟩)] = "Dönüş Formasyonu" ∧
    defaultConfig.reversalSwing ≤ ((|15| : ℤ) : ℚ) :=
  ⟨(C4_classifier_order defaultConfig 15
      [("divergence", ⟨.str "Pozitif Uyumsuzluk", 1⟩), ("candlestick", ⟨.str "Yok", 0⟩),
       ("adx", ⟨.num (some 30), 1⟩)]
      ⟨.str "Pozitif Uyumsuzluk", 1⟩ ⟨.str "Yok", 0⟩ ⟨.num (some 30), 1⟩
      (by decide) (by decide) (by decide)).1 (Or.inl (by decide)), by decide⟩

lemma pyGT_self (c : Cell) : pyGT c c = false := by
  cases c <;> simp [pyGT]

/-- C1 (amended): on a last row with a close price but none of the indicator
columns (and default thresholds), no interpreter fails; RSI defaults to 50
and Williams %R to -50, each giving signal 0, but the EMA-confluence, MACD,
VWAP, Supertrend and OBV interpreters emit signal -1 — their missing-column
defaults make the bullish comparison false, which the code maps to -1, not
to 0. -/
theorem C1_missing_column_defaults (cfg : Config) (last prev : Row) (c : Cell)
    (hclose : Row.find? last "close" = some c)
    (hrsi : Row.find? last "RSI_14" = none)
    (hwr : Row.find? last "WILLR_14" = none)
    (hmacd : Row.find? last "MACD_12_26_9" = none)
    (hmacds : Row.find? last "MACDs_12_26_9" = none)
    (hvwap : Row.find? last "VWAP_D" = none)
    (hst : Row.find? last "SUPERTd_7_3.0" = none)
    (hobv : Row.find? last "OBV" = none)
    (hobvp : Row.find? prev "OBV" = none)
    (hema : ∀ p ∈ cfg.emaPeriods, Row.find? last (emaKey p) = none)
    (hob : cfg.rsi_overbought? = none) (hos : cfg.rsi_oversold? = none)
    (hpne : cfg.emaPeriods ≠ []) :
    analyze_rsi cfg last = ("rsi", ⟨.num (some 50), 0⟩) ∧
    analyze_williams_r last = ("williams_r", ⟨.num (some (-50)), 0⟩) ∧
    (∃ v, analyze_ema cfg last = .ok ("ema", ⟨.str v, -1⟩)) ∧
    analyze_macd last = ("macd", ⟨.num (some 0), -1⟩) ∧
    analyze_vwap last = .ok ("vwap", ⟨.str "Altında", -1⟩) ∧
    analyze_supertrend last = ("supertrend", ⟨.str "SAT", -1⟩) ∧
    analyze_obv last prev = ("obv", ⟨.str "0", -1⟩) := by
  have hgetc : ∀ k d, Row.find? last k = none → Row.getC last k d = d := by
    intro k d h
    simp [Row.getC, h]
  refine ⟨?_, ?_, ?_, ?_, ?_, ?_, ?_⟩
  · rw [analyze_rsi, hgetc _ _ hrsi, Config.rsiOverbought, Config.rsiOversold, hob, hos]
    simp only [Option.getD_none]
    decide
  · rw [analyze_williams_r, hgetc _ _ hwr]
    decide
  · obtain ⟨p0, ps, hps⟩ : ∃ p0 ps, cfg.emaPeriods = p0 :: ps := by
      cases h : cfg.emaPeriods with
      | nil => exact absurd h hpne
      | cons a l => exact ⟨a, l, rfl⟩
    have hmapc : cfg.emaPeriods.map
        (fun p => if pyGT c (Row.getC last (emaKey p) c) then (1 : ℤ) else -1) =
        cfg.emaPeriods.map (fun _ => (-1 : ℤ)) :=
      List.map_congr_left (fun p hp => by rw [hgetc _ _ (hema p hp), pyGT_self]; simp)
    have hsum : (cfg.emaPeriods.map (fun _ => (-1 : ℤ))).sum = -(cfg.emaPeriods.length : ℤ) := by
      rw [List.map_const']
      simp [List.sum_replicate]
    refine ⟨"Fiyat < EMA" ++ toString p0, ?_⟩
    rw [analyze_ema]
    simp only [Row.item, hclose, Bind.bind, Except.bind]
    rw [hmapc, hsum, hps]
    have hc1 : ¬ (0 < -(((p0 :: ps).length : ℕ) : ℤ)) := by
      simp only [List.length_cons]
      omega
    have hc2 : -(((p0 :: ps).length : ℕ) : ℤ) < 0 := by
      simp only [List.length_cons]
      omega
    rw [if_neg hc1, if_pos hc2]
    simp
  · rw [analyze_macd, hgetc _ _ hmacd, hgetc _ _ hmacds]
    decide
  · rw [analyze_vwap]
    simp only [Row.item, hclose, Bind.bind, Except.bind]
    rw [hgetc _ _ hvwap, pyGT_self]
    simp
  · rw [analyze_supertrend, hgetc _ _ hst]
    decide
  · rw [analyze_obv, hgetc _ _ hobv]
    have : Row.getC prev "OBV" (some 0) = some 0 := by simp [Row.getC, hobvp]
    rw [this]
    decide

/-- C1 witness: the amended behaviour on a concrete close-only row. -/
theorem C1_missing_column_defaults_witness :
    analyze_rsi defaultConfig exRowCloseOnly = ("rsi", ⟨.num (some 50), 0⟩) ∧
    analyze_williams_r exRowCloseOnly = ("williams_r", ⟨.num (some (-50)), 0⟩) ∧
    (∃ v, analyze_ema defaultConfig exRowCloseOnly = .ok ("ema", ⟨.str v, -1⟩)) ∧
    analyze_macd exRowCloseOnly = ("macd", ⟨.num (some 0), -1⟩) ∧
    analyze_vwap exRowCloseOnly = .ok ("vwap", ⟨.str "Altında", -1⟩) ∧
    analyze_supertrend exRowCloseOnly = ("supertrend", ⟨.str "SAT", -1⟩) ∧
    analyze_obv exRowCloseOnly [] = ("obv", ⟨.str "0", -1⟩) :=
  C1_missing_column_defaults defaultConfig exRowCloseOnly [] (some 100)
    (by decide) (by decide) (by decide) (by decide) (by decide) (by decide)
    (by decide) (by decide) (by decide) (by decide) (by decide) (by decide)
    (by decide)

/-- C1 counterexample to the claim as stated: with every MACD and EMA column
absent, `analyze_macd` and `analyze_ema` emit signal -1, not the claimed
neutral 0. -/
theorem C1_missing_column_defaults_cex :
    analyze_macd ([] : Row) = ("macd", ⟨.num (some 0), -1⟩) ∧
    (analyze_macd ([] : Row)).2.signal ≠ 0 ∧
    analyze_ema defaultConfig exRowCloseOnly = .ok ("ema", ⟨.str "Fiyat < EMA50", -1⟩) ∧
    ((-1 : ℤ) ≠ 0) := by decide

/-- C6: `analyze_divergence` is neutral when the RSI column is absent;
otherwise the bullish test — at least two price-low troughs and two RSI
troughs from `find_peaks` (distance 10, width 1) on the negated series, the
two most recent price troughs descending and the two most recent RSI troughs
ascending — yields +1; only when no bullish case holds does the symmetric
peak test on the high-price series yield -1; otherwise the signal is 0.  At
most one divergence is reported per call, bullish checked first. -/
theorem C6_divergence (df : Table) :
    (getCol df "RSI_14" = none →
      analyze_divergence df = .ok ("divergence", ⟨.str "Yok", 0⟩)) ∧
    (∀ rsiCol lowCol highCol, getCol df "RSI_14" = some rsiCol →
      getCol df "low" = some lowCol → getCol df "high" = some highCol →
      ((bullishDivergence rsiCol lowCol = true →
          analyze_divergence df = .ok ("divergence", ⟨.str "Pozitif Uyumsuzluk", 1⟩)) ∧
       (bullishDivergence rsiCol lowCol = false →
          bearishDivergence rsiCol highCol = true →
          analyze_divergence df = .ok ("divergence", ⟨.str "Negatif Uyumsuzluk", -1⟩)) ∧
       (bullishDivergence rsiCol lowCol = false →
          bearishDivergence rsiCol highCol = false →
          analyze_divergence df = .ok ("divergence", ⟨.str "Yok", 0⟩)))) ∧
    (∀ rsiCol lowCol,
      bullishDivergence rsiCol lowCol = true ↔
        (2 ≤ (findPeaks10w1 ((divPrice rsiCol lowCol).map cneg)).length ∧
         2 ≤ (findPeaks10w1 (((divRsi rsiCol).map (fun q => -q)).map some)).length ∧
         pyLT ((divPrice rsiCol lowCol).getD
             (lastOf (findPeaks10w1 ((divPrice rsiCol lowCol).map cneg))) none)
           ((divPrice rsiCol lowCol).getD
             (prevOf (findPeaks10w1 ((divPrice rsiCol lowCol).map cneg))) none) = true ∧
         (divRsi rsiCol).getD
             (prevOf (findPeaks10w1 (((divRsi rsiCol).map (fun q => -q)).map some))) 0 <
           (divRsi rsiCol).getD
             (lastOf (findPeaks10w1 (((divRsi rsiCol).map (fun q => -q)).map some))) 0)) ∧
    (∀ rsiCol highCol,
      bearishDivergence rsiCol highCol = true ↔
        (2 ≤ (findPeaks10w1 (divPrice rsiCol highCol)).length ∧
         2 ≤ (findPeaks10w1 ((divRsi rsiCol).map some)).length ∧
         pyGT ((divPrice rsiCol highCol).getD
             (lastOf (findPeaks10w1 (divPrice rsiCol highCol))) none)
           ((divPrice rsiCol highCol).getD
             (prevOf (findPeaks10w1 (divPrice rsiCol highCol))) none) = true ∧
         (divRsi rsiCol).getD
             (lastOf (findPeaks10w1 ((divRsi rsiCol).map some))) 0 <
           (divRsi rsiCol).getD
             (prevOf (findPeaks10w1 ((divRsi rsiCol).map some))) 0)) := by
  refine ⟨?_, ?_, ?_, ?_⟩
  · intro h
    simp [analyze_divergence, h]
  · intro rsiCol lowCol highCol hr hlo hhi
    refine ⟨?_, ?_, ?_⟩
    · intro hb
      simp [analyze_divergence, hr, colItem, hlo, hhi, Bind.bind, Except.bind, hb]
    · intro hb hbr
      simp [analyze_divergence, hr, colItem, hlo, hhi, Bind.bind, Except.bind, hb, hbr]
    · intro hb hbr
      simp [analyze_divergence, hr, colItem, hlo, hhi, Bind.bind, Except.bind, hb, hbr]
  · intro rsiCol lowCol
    simp [bullishDivergence, Bool.and_eq_true, decide_eq_true_eq, and_assoc]
  · intro rsiCol highCol
    simp [bearishDivergence, Bool.and_eq_true, decide_eq_true_eq, and_assoc]

/-- C6 witness: a concrete 24-row table with two descending price troughs
(indices 5 and 17) and two ascending RSI troughs at the same indices yields
the bullish divergence signal +1. -/
theorem C6_divergence_witness :
    bullishDivergence (exRsis.map some) (exLows.map some) = true ∧
    analyze_divergence exTDiv = .ok ("divergence", ⟨.str "Pozitif Uyumsuzluk", 1⟩) := by
  have hb : bullishDivergence (exRsis.map some) (exLows.map some) = true := by decide
  exact ⟨hb, ((C6_divergence exTDiv).2.1 (exRsis.map some) (exLows.map some)
    (exHighs.map some) (by decide) (by decide) (by decide)).1 hb⟩

/-- C8: whenever `run_full_analysis` returns a result, the per-symbol entry
built by `data_updater_thread` carries the analysis fields {score, strategy,
price, details, summary} merged with the raw market-snapshot fields
(funding rate, open interest, long/short ratio, order-book depth). -/
theorem C8_merged_result (cfg : Config) (oracle : Table → Except String Table)
    (klines : Option Table) (market : MarketData) (parite : String) (r : FullResult)
    (h : run_full_analysis cfg oracle klines market = .ok r) :
    updater_entry cfg oracle klines market parite =
      .ok { score := r.score, strategy := r.strategy, fiyat := r.fiyat,
            details := r.details, detay_str := r.detay_str, parite := parite,
            funding_rate := market.funding_rate, open_interest := market.open_interest,
            ls_rat := market.ls_rat, depth := market.depth } := by
  simp [updater_entry, h, Bind.bind, Except.bind]

/-- C8 witness: a concrete successful run, with the merged entry spelled
out. -/
theorem C8_merged_result_witness :
    run_full_analysis cfg8 Except.ok (some exT8) exMarket = .ok exR8 ∧
    updater_entry cfg8 Except.ok (some exT8) exMarket "BTCUSDT" =
      .ok { score := exR8.score, strategy := exR8.strategy, fiyat := exR8.fiyat,
            details := exR8.details, detay_str := exR8.detay_str, parite := "BTCUSDT",
            funding_rate := none, open_interest := some 5000, ls_rat := some (3/2),
            depth := some { bids := [(100, 1)], asks := [(101, 2)] } } := by
  refine ⟨by decide, ?_⟩
  rw [C8_merged_result cfg8 Except.ok (some exT8) exMarket "BTCUSDT" exR8 (by decide)]
  rfl

lemma analyze_ema_close (cfg : Config) (last : Row) (x : String × Signal)
    (h : analyze_ema cfg last = .ok x) : ∃ c, Row.item last "close" = .ok c := by
  simp only [analyze_ema, Bind.bind, Except.bind] at h
  cases hc : Row.item last "close" with
  | error e =>
    rw [hc] at h
    simp at h
  | ok c => exact ⟨c, rfl⟩

lemma interpretAll_close (cfg : Config) (df : Table) (last prev : Row)
    (market : MarketData) (results : AnalysisMap)
    (h : interpretAll cfg df last prev market = .ok results) :
    ∃ c, Row.item last "close" = .ok c := by
  simp only [interpretAll, Bind.bind, Except.bind] at h
  cases he : analyze_ema cfg last with
  | error e =>
    rw [he] at h
    simp at h
  | ok e => exact analyze_ema_close cfg last e he

lemma interpretAll_patterns_mem (cfg : Config) (df : Table) (last prev : Row)
    (market : MarketData) (results : AnalysisMap)
    (h : interpretAll cfg df last prev market = .ok results) :
    ("patterns", (⟨.str "Geliştirilecek", 0⟩ : Signal)) ∈ results := by
  simp only [interpretAll, Bind.bind, Except.bind] at h
  cases he : analyze_ema cfg last with
  | error x =>
    rw [he] at h
    simp at h
  | ok e =>
    rw [he] at h
    cases hbb : analyze_bollinger_bands last with
    | error x =>
      rw [hbb] at h
      simp at h
    | ok bb =>
      rw [hbb] at h
      cases hvw : analyze_vwap last with
      | error x =>
        rw [hvw] at h
        simp at h
      | ok vw =>
        rw [hvw] at h
        cases hich : analyze_ichimoku last with
        | error x =>
          rw [hich] at h
          simp at h
        | ok ich =>
          rw [hich] at h
          cases hdv : analyze_divergence df with
          | error x =>
            rw [hdv] at h
            simp at h
          | ok dv =>
            rw [hdv] at h
            simp only [Except.ok.injEq] at h
            subst h
            simp [analyze_classical_patterns]

lemma run_full_analysis_details (cfg : Config) (oracle : Table → Except String Table)
    (klines : Option Table) (market : MarketData) (r : FullResult)
    (h : run_full_analysis cfg oracle klines market = .ok r) :
    r.details = [] ∨ ∃ df last prev results,
      interpretAll cfg df last prev market = .ok results ∧ r.details = results := by
  cases klines with
  | none =>
    simp only [run_full_analysis, Except.ok.injEq] at h
    subst h
    exact Or.inl rfl
  | some df0 =>
    simp only [run_full_analysis] at h
    by_cases hlen : df0.nrows < cfg.minDataPoints
    · rw [if_pos hlen] at h
      simp only [Except.ok.injEq] at h
      subst h
      exact Or.inl rfl
    · rw [if_neg hlen] at h
      cases hvw : (oracle df0).bind calculate_manual_vwap with
      | error e =>
        rw [hvw] at h
        simp only [Except.ok.injEq] at h
        subst h
        exact Or.inl rfl
      | ok df =>
        rw [hvw] at h
        simp only [] at h
        cases h1 : ilocNeg df 1 with
        | error e =>
          rw [h1] at h
          exact absurd h (by simp)
        | ok last =>
          rw [h1] at h
          simp only [] at h
          cases h2 : ilocNeg df 2 with
          | error e =>
            rw [h2] at h
            exact absurd h (by simp)
          | ok prev =>
            rw [h2] at h
            simp only [] at h
            cases hia : interpretAll cfg df last prev market with
            | error e =>
              rw [hia] at h
              simp only [Except.ok.injEq] at h
              subst h
              exact Or.inl rfl
            | ok results =>
              rw [hia] at h
              simp only [] at h
              cases hss : is_signal_safe cfg (calculate_confluence_score cfg results) last with
              | error e =>
                rw [hss] at h
                exact absurd h (by simp)
              | ok sr =>
                rw [hss] at h
                simp only [] at h
                cases hcl : Row.item last "close" with
                | error e =>
                  rw [hcl] at h
                  exact absurd h (by simp)
                | ok c =>
                  rw [hcl] at h
                  simp only [Except.ok.injEq] at h
                  subst h
                  exact Or.inr ⟨df, last, prev, results, hia, rfl⟩

/-- C10: `analyze_classical_patterns` returns the constant neutral entry
`("patterns", ⟨"Geliştirilecek", 0⟩)`; the entry appears in the details of
every non-soft-fail result of `run_full_analysis`; and, having signal 0, it
never changes the confluence score or the summary text. -/
theorem C10_patterns_placeholder :
    (∀ df : Table, analyze_classical_patterns df = ("patterns", ⟨.str "Geliştirilecek", 0⟩)) ∧
    (∀ (cfg : Config) (oracle : Table → Except String Table) (klines : Option Table)
      (market : MarketData) (r : FullResult),
      run_full_analysis cfg oracle klines market = .ok r →
      r.details = [] ∨ ("patterns", (⟨.str "Geliştirilecek", 0⟩ : Signal)) ∈ r.details) ∧
    (∀ (cfg : Config) (l1 l2 : AnalysisMap) (v : SigVal),
      calculate_confluence_score cfg (l1 ++ ("patterns", ⟨v, 0⟩) :: l2) =
        calculate_confluence_score cfg (l1 ++ l2)) ∧
    (∀ (cfg : Config) (l1 l2 : AnalysisMap) (v : SigVal),
      generate_summary_details cfg (l1 ++ ("patterns", ⟨v, 0⟩) :: l2) =
        generate_summary_details cfg (l1 ++ l2)) := by
  refine ⟨fun _ => rfl, ?_, ?_, ?_⟩
  · intro cfg oracle klines market r h
    rcases run_full_analysis_details cfg oracle klines market r h with hd | ⟨df, last, prev, results, hia, hd⟩
    · exact Or.inl hd
    · refine Or.inr ?_
      rw [hd]
      exact interpretAll_patterns_mem cfg df last prev market results hia
  · intro cfg l1 l2 v
    simp [calculate_confluence_score, List.map_append, List.sum_append]
  · intro cfg l1 l2 v
    simp [generate_summary_details, List.filter_append, List.filter_cons]

/-- C10 witness: the placeholder entry in the concrete successful run, and
score invariance on a concrete map. -/
theorem C10_patterns_placeholder_witness :
    (exR8.details = [] ∨
      ("patterns", (⟨.str "Geliştirilecek", 0⟩ : Signal)) ∈ exR8.details) ∧
    calculate_confluence_score cfgInt (exResInt ++ ("patterns", ⟨.str "Geliştirilecek", 0⟩) :: []) =
      calculate_confluence_score cfgInt (exResInt ++ []) :=
  ⟨C10_patterns_placeholder.2.1 cfg8 Except.ok (some exT8) exMarket exR8 (by decide),
   C10_patterns_placeholder.2.2.1 cfgInt exResInt [] (.str "Geliştirilecek")⟩

lemma calculate_manual_vwap_dates (t t' : Table)
    (h : calculate_manual_vwap t = .ok t') : t'.dates = t.dates := by
  simp only [calculate_manual_vwap, Bind.bind, Except.bind] at h
  cases hh : colItem t "high" with
  | error e =>
    rw [hh] at h
    simp at h
  | ok H =>
    rw [hh] at h
    simp only [] at h
    cases hl : colItem t "low" with
    | error e =>
      rw [hl] at h
      simp at h
    | ok L =>
      rw [hl] at h
      simp only [] at h
      cases hc : colItem t "close" with
      | error e =>
        rw [hc] at h
        simp at h
      | ok C =>
        rw [hc] at h
        simp only [] at h
        cases hv : colItem t "volume" with
        | error e =>
          rw [hv] at h
          simp at h
        | ok V =>
          rw [hv] at h
          simp only [Except.ok.injEq] at h
          rw [← h, dates_dropCol, dates_dropCol, dates_dropCol, dates_setCol,
            dates_setCol, dates_setCol, dates_setCol]

lemma is_signal_safe_ok (cfg : Config) (score : ℤ) (last : Row) (c : Cell)
    (hper : cfg.emaPeriodsSafe ≠ []) (hc : Row.item last "close" = .ok c) :
    ∃ sr, is_signal_safe cfg score last = .ok sr := by
  unfold is_signal_safe
  by_cases hs : score = 0
  · rw [if_pos hs]
    exact ⟨_, rfl⟩
  · rw [if_neg hs]
    cases hm : cfg.emaPeriodsSafe.max? with
    | none => exact absurd (List.max?_eq_none_iff.mp hm) hper
    | some m =>
      simp only []
      cases hf : Row.find? last (emaKey m) with
      | none =>
        simp only []
        exact ⟨_, rfl⟩
      | some ema =>
        simp only [hc, Bind.bind, Except.bind]
        split
        · exact ⟨_, rfl⟩
        · split
          · exact ⟨_, rfl⟩
          · exact ⟨_, rfl⟩

/-- C5: `run_full_analysis` never propagates an exception — for every oracle
behaviour it returns a result (given the standing facts that the minimum row
count is at least 2, the configured EMA period list is nonempty, and the
indicator collaborator preserves the row count, all true by default).  A
missing table or one shorter than `min_data_points` yields the zero-score
empty result with the insufficient-data reason; an indicator-computation
error yields the empty result carrying that error; an interpreter error
yields the empty result carrying that error; and the empty result has score
0, empty details, price 0, and the reason in both text fields. -/
theorem C5_soft_fail (cfg : Config) (oracle : Table → Except String Table)
    (klines : Option Table) (market : MarketData)
    (hmin : 2 ≤ cfg.minDataPoints) (hper : cfg.emaPeriodsSafe ≠ [])
    (horacle : ∀ df t', klines = some df → oracle df = .ok t' → t'.nrows = df.nrows) :
    (∃ r, run_full_analysis cfg oracle klines market = .ok r) ∧
    (klines = none →
      run_full_analysis cfg oracle klines market =
        .ok (generate_empty_result "Yetersiz veri")) ∧
    (∀ df, klines = some df → df.nrows < cfg.minDataPoints →
      run_full_analysis cfg oracle klines market =
        .ok (generate_empty_result "Yetersiz veri")) ∧
    (∀ df e, klines = some df → ¬ df.nrows < cfg.minDataPoints → oracle df = .error e →
      run_full_analysis cfg oracle klines market =
        .ok (generate_empty_result ("İndikatör Hesaplama Hatası: " ++ e))) ∧
    (∀ df df' e last prev, klines = some df → ¬ df.nrows < cfg.minDataPoints →
      (oracle df).bind calculate_manual_vwap = .ok df' →
      ilocNeg df' 1 = .ok last → ilocNeg df' 2 = .ok prev →
      interpretAll cfg df' last prev market = .error e →
      run_full_analysis cfg oracle klines market =
        .ok (generate_empty_result ("Analiz Yorumlama Hatası: " ++ e))) ∧
    (∀ reason, (generate_empty_result reason).score = 0 ∧
      (generate_empty_result reason).details = [] ∧
      (generate_empty_result reason).fiyat = some 0 ∧
      (generate_empty_result reason).strategy = reason ∧
      (generate_empty_result reason).detay_str = reason) := by
  refine ⟨?_, ?_, ?_, ?_, ?_, fun reason => ⟨rfl, rfl, rfl, rfl, rfl⟩⟩
  · cases hx : run_full_analysis cfg oracle klines market with
    | ok r => exact ⟨r, rfl⟩
    | error e =>
      exfalso
      cases klines with
      | none => simp [run_full_analysis] at hx
      | some df0 =>
        simp only [run_full_analysis] at hx
        by_cases hlen : df0.nrows < cfg.minDataPoints
        · rw [if_pos hlen] at hx
          simp at hx
        · rw [if_neg hlen] at hx
          cases hb : (oracle df0).bind calculate_manual_vwap with
          | error eb =>
            rw [hb] at hx
            simp at hx
          | ok df =>
            rw [hb] at hx
            simp only [] at hx
            have hdf : df.nrows = df0.nrows := by
              cases ho : oracle df0 with
              | error eo =>
                rw [ho] at hb
                simp [Except.bind] at hb
              | ok t1 =>
                rw [ho] at hb
                simp only [Except.bind] at hb
                have hd := calculate_manual_vwap_dates t1 df hb
                have hn := horacle df0 t1 rfl ho
                rw [Table.nrows, hd, ← Table.nrows, hn]
            have h2r : 2 ≤ df.nrows := by
              rw [hdf]
              omega
            have hiloc1 : ilocNeg df 1 = .ok (df.ilocRow (df.nrows - 1)) := by
              rw [ilocNeg, if_pos ⟨by omega, by omega⟩]
            have hiloc2 : ilocNeg df 2 = .ok (df.ilocRow (df.nrows - 2)) := by
              rw [ilocNeg, if_pos ⟨by omega, by omega⟩]
            rw [hiloc1] at hx
            simp only [] at hx
            rw [hiloc2] at hx
            simp only [] at hx
            cases hia : interpretAll cfg df (df.ilocRow (df.nrows - 1))
                (df.ilocRow (df.nrows - 2)) market with
            | error e2 =>
              rw [hia] at hx
              simp at hx
            | ok results =>
              rw [hia] at hx
              simp only [] at hx
              obtain ⟨c, hc⟩ := interpretAll_close cfg df _ _ market results hia
              obtain ⟨sr, hsr⟩ := is_signal_safe_ok cfg
                (calculate_confluence_score cfg results) _ c hper hc
              rw [hsr] at hx
              simp only [] at hx
              rw [hc] at hx
              simp at hx
  · intro h
    subst h
    simp [run_full_analysis]
  · intro df h hlen
    subst h
    simp [run_full_analysis, hlen]
  · intro df e h hlen ho
    subst h
    simp only [run_full_analysis]
    rw [if_neg hlen]
    have hb : (oracle df).bind calculate_manual_vwap = .error e := by
      rw [ho]
      rfl
    rw [hb]
  · intro df df' e last prev h hlen hb h1 h2 hie
    subst h
    simp only [run_full_analysis]
    rw [if_neg hlen, hb]
    simp only []
    rw [h1]
    simp only []
    rw [h2]
    simp only []
    rw [hie]

/-- C5 witness: a missing table and a too-short table both produce the
zero-score insufficient-data result under the default configuration. -/
theorem C5_soft_fail_witness :
    run_full_analysis defaultConfig Except.ok none exMarket =
      .ok (generate_empty_result "Yetersiz veri") ∧
    run_full_analysis defaultConfig Except.ok (some exT8) exMarket =
      .ok (generate_empty_result "Yetersiz veri") ∧
    (generate_empty_result "Yetersiz veri").score = 0 :=
  ⟨(C5_soft_fail defaultConfig Except.ok none exMarket (by decide) (by decide)
      (fun df t' h => by cases h)).2.1 rfl,
   (C5_soft_fail defaultConfig Except.ok (some exT8) exMarket (by decide) (by decide)
      (fun df t' h ho => by
        cases h
        cases ho
        rfl)).2.2.1 exT8 rfl (by decide),
   rfl⟩
